import Mathlib

/-!
# Link-control codecs of the `layers` package

A shallow embedding of the three decoding layers `CHAP` (chap.go), `IPCP` (ipcp.go) and
`SCL2P` (scl2p.go): their `DecodeFromBytes` and `SerializeTo` methods, with the Go
run-time behaviour they rely on made explicit.

* A byte is `Fin 256`, a `uint16` is `Fin 65536`; arithmetic that Go performs in a fixed
  width is written on `Nat` with an explicit `% 256` or `% 65536`.
* A `[]byte` is `Option (List Byte)`: `none` is the `nil` slice, `some l` a non-nil slice
  with elements `l` (the code compares slices with `nil`, so the difference is kept).
  Capacity is taken equal to length; every slice expression of the code has its upper
  bound within the length whenever it is reached with the lower bound below it.
* A method call is a function from the receiver and the arguments to the receiver after
  the call, the feedback after the call and what was returned: `nil`, an error, or a
  run-time panic (index or slice bounds out of range).
-/

namespace Layers

/-! ## Bytes and slices -/

/-- Go `byte` / `uint8`. -/
abbrev Byte := Fin 256

/-- Go `uint16`. -/
abbrev Word16 := Fin 65536

/-- Go `[]byte`: `none` is `nil`. -/
abbrev Slice := Option (List Byte)

namespace Slice

/-- The builtin `len`. -/
def len : Slice → Nat
  | none => 0
  | some l => l.length

/-- The elements of a slice, as a byte sequence (`nil` has none). -/
def bytes : Slice → List Byte
  | none => []
  | some l => l

/-- The expression `s[i]`; `none` stands for the index-out-of-range panic. -/
def index (s : Slice) (i : Nat) : Option Byte :=
  s.bytes[i]?

/-- The expression `s[lo:hi]`; `none` stands for the slice-bounds-out-of-range panic.
Slicing `nil` within bounds gives `nil`, slicing a non-nil slice gives a non-nil slice. -/
def slice (s : Slice) (lo hi : Nat) : Option Slice :=
  if lo ≤ hi ∧ hi ≤ s.len then some (s.map fun l => (l.take hi).drop lo) else none

/-- The expression `s[lo:]`. -/
def sliceFrom (s : Slice) (lo : Nat) : Option Slice :=
  s.slice lo s.len

/-- The expression `s[:hi]`. -/
def sliceTo (s : Slice) (hi : Nat) : Option Slice :=
  s.slice 0 hi

end Slice

/-! ## Errors, panics and results -/

/-- A Go run-time panic raised by an index or slice expression. -/
inductive Panic where
  /-- Index `i` read from a slice of length `n`. -/
  | indexOutOfRange (i n : Nat)
  /-- Slice expression `[lo:hi]` on a slice of length `n`. -/
  | sliceBoundsOutOfRange (lo hi n : Nat)
  deriving DecidableEq, Repr

/-- The errors the three layers build with `fmt.Errorf`, one constructor per format
string, carrying the formatted arguments. -/
inductive Error where
  /-- Format "CHAP length %d too short". -/
  | chapTooShort (n : Nat)
  /-- Format "CHAP length %d too short, %d expected". -/
  | chapTooShortExpected (n expected : Nat)
  /-- Format "Value field length too short, %d expected". -/
  | chapValueTooShort (expected : Nat)
  /-- Format "invalid CHAP code %d". -/
  | chapInvalidCode (code : Nat)
  /-- Format "packet with CHAP code %d cannot contain Message field". -/
  | chapMessageConflict (code : Nat)
  /-- Format "packet with CHAP code %d cannot contain Value and Name fields". -/
  | chapValueNameConflict (code : Nat)
  /-- Format "IPCP length %d too short". -/
  | ipcpTooShort (n : Nat)
  /-- Format "IPCP length %d too short, %d expected". -/
  | ipcpTooShortExpected (n expected : Nat)
  /-- Format "invalid IPCP code %d". -/
  | ipcpInvalidCode (code : Nat)
  /-- Format "packet with IPCP code %d cannot contain Message field". -/
  | ipcpMessageConflict (code : Nat)
  /-- Format "packet with IPCP code %d cannot contain Address and SubnetMask fields". -/
  | ipcpAddressMaskConflict (code : Nat)
  /-- Format "SCL2P header length too short". -/
  | scl2pTooShort
  /-- An error handed back by the serialization buffer. -/
  | buffer (id : Nat)
  deriving DecidableEq, Repr

/-- The three error kinds of the specification, and the kind of an error that comes
from the serialization buffer. -/
inductive ErrorKind where
  | Truncated
  | InvalidCode
  | FieldConflict
  | Buffer
  deriving DecidableEq, Repr

/-- The kind of each error: the "too short" errors are the truncation errors. -/
def Error.kind : Error → ErrorKind
  | .chapTooShort _ => .Truncated
  | .chapTooShortExpected _ _ => .Truncated
  | .chapValueTooShort _ => .Truncated
  | .chapInvalidCode _ => .InvalidCode
  | .chapMessageConflict _ => .FieldConflict
  | .chapValueNameConflict _ => .FieldConflict
  | .ipcpTooShort _ => .Truncated
  | .ipcpTooShortExpected _ _ => .Truncated
  | .ipcpInvalidCode _ => .InvalidCode
  | .ipcpMessageConflict _ => .FieldConflict
  | .ipcpAddressMaskConflict _ => .FieldConflict
  | .scl2pTooShort => .Truncated
  | .buffer _ => .Buffer

/-- What a method call comes back with. -/
inductive Ret where
  /-- The method returned `nil`. -/
  | nil
  /-- The method returned an error. -/
  | error (e : Error)
  /-- The method did not return: the run time panicked. -/
  | panic (p : Panic)
  deriving DecidableEq, Repr

/-- The `gopacket.DecodeFeedback` a decoder is handed: it counts the calls of
`SetTruncated` it has received. -/
structure DecodeFeedback where
  truncatedCalls : Nat
  deriving DecidableEq, Repr

/-- The method `SetTruncated`. -/
def DecodeFeedback.SetTruncated (df : DecodeFeedback) : DecodeFeedback :=
  { df with truncatedCalls := df.truncatedCalls + 1 }

/-- The state after a call of `DecodeFromBytes`: the receiver, the feedback, and what
was returned. -/
structure Decoded (α : Type) where
  layer : α
  df : DecodeFeedback
  ret : Ret
  deriving DecidableEq, Repr

/-- The function `binary.BigEndian.Uint16`: `uint16(b[1]) | uint16(b[0])<<8`, with its
bounds check of `b[1]`; `none` stands for the panic. -/
def BigEndian.Uint16 (b : Slice) : Option Word16 :=
  match b.index 1, b.index 0 with
  | some lo, some hi => some ⟨(lo.val ||| (hi.val <<< 8) % 65536) % 65536, Nat.mod_lt _ (by decide)⟩
  | _, _ => none

/-- The embedded `BaseLayer`. -/
structure BaseLayer where
  Contents : Slice
  Payload : Slice
  deriving DecidableEq, Repr

/-! ## CHAP -/

def CHAPChallenge : Byte := 1
def CHAPResponse : Byte := 2
def CHAPSuccess : Byte := 3
def CHAPFailure : Byte := 4

/-- The layer `CHAP`. -/
structure CHAP extends BaseLayer where
  Code : Byte
  Identifier : Byte
  Length : Word16
  ValueSize : Byte
  Value : Slice
  Name : Slice
  Message : Slice
  deriving DecidableEq, Repr

/-- The method `CHAP.DecodeFromBytes`. -/
def CHAP.DecodeFromBytes (chap : CHAP) (data : Slice) (df : DecodeFeedback) : Decoded CHAP :=
  if data.len < 4 then
    ⟨chap, df.SetTruncated, .error (.chapTooShort data.len)⟩
  else
  match data.index 0 with
  | none => ⟨chap, df, .panic (.indexOutOfRange 0 data.len)⟩
  | some code =>
  let chap := { chap with Code := code }
  match data.index 1 with
  | none => ⟨chap, df, .panic (.indexOutOfRange 1 data.len)⟩
  | some identifier =>
  let chap := { chap with Identifier := identifier }
  match (data.slice 2 4).bind BigEndian.Uint16 with
  | none => ⟨chap, df, .panic (.sliceBoundsOutOfRange 2 4 data.len)⟩
  | some length =>
  let chap := { chap with Length := length }
  if data.len < chap.Length.val then
    ⟨chap, df.SetTruncated, .error (.chapTooShortExpected data.len chap.Length.val)⟩
  else
  let body : Decoded CHAP :=
    if chap.Code = CHAPChallenge ∨ chap.Code = CHAPResponse then
      match data.index 4 with
      | none => ⟨chap, df, .panic (.indexOutOfRange 4 data.len)⟩
      | some valueSize =>
      let chap := { chap with ValueSize := valueSize }
      if (data.len : Int) - 5 < (chap.ValueSize.val : Int) then
        ⟨chap, df.SetTruncated, .error (.chapValueTooShort chap.ValueSize.val)⟩
      else
      -- `5+chap.ValueSize` is a `uint8` sum
      match data.slice 5 ((5 + chap.ValueSize.val) % 256) with
      | none => ⟨chap, df, .panic (.sliceBoundsOutOfRange 5 ((5 + chap.ValueSize.val) % 256) data.len)⟩
      | some value =>
      let chap := { chap with Value := value }
      match data.sliceFrom ((5 + chap.ValueSize.val) % 256) with
      | none => ⟨chap, df, .panic (.sliceBoundsOutOfRange ((5 + chap.ValueSize.val) % 256) data.len data.len)⟩
      | some name =>
      ⟨{ chap with Name := name, Message := none }, df, .nil⟩
    else if chap.Code = CHAPSuccess ∨ chap.Code = CHAPFailure then
      match data.sliceFrom 4 with
      | none => ⟨chap, df, .panic (.sliceBoundsOutOfRange 4 data.len data.len)⟩
      | some message =>
      ⟨{ chap with Message := message, ValueSize := 0, Value := none, Name := none }, df, .nil⟩
    else
      ⟨chap, df, .error (.chapInvalidCode chap.Code.val)⟩
  match body.ret with
  | .nil =>
    let chap := body.layer
    match data.sliceTo chap.Length.val with
    | none => ⟨chap, body.df, .panic (.sliceBoundsOutOfRange 0 chap.Length.val data.len)⟩
    | some contents =>
    let chap := { chap with Contents := contents }
    match data.sliceFrom chap.Length.val with
    | none => ⟨chap, body.df, .panic (.sliceBoundsOutOfRange chap.Length.val data.len data.len)⟩
    | some payload =>
    ⟨{ chap with Payload := payload }, body.df, .nil⟩
  | _ => body

/-- The zero value `&CHAP{}` that `decodeCHAP` decodes into. -/
def CHAP.zero : CHAP :=
  { Contents := none, Payload := none, Code := 0, Identifier := 0, Length := 0,
    ValueSize := 0, Value := none, Name := none, Message := none }

/-- A feedback that has received no call yet. -/
def DecodeFeedback.fresh : DecodeFeedback := ⟨0⟩

/-! ## Serialization -/

/-- The `gopacket.SerializeOptions`. -/
structure SerializeOptions where
  FixLengths : Bool
  ComputeChecksums : Bool
  deriving DecidableEq, Repr

/-- The `gopacket.SerializeBuffer` a layer serializes into, as far as `SerializeTo` sees
it: `PrependBytes` either returns an error or hands out room of the requested size in
front of the bytes written so far, and that room holds whatever was there before. -/
structure SerializeBuffer where
  /-- The error `PrependBytes` returns, if it returns one. -/
  err : Option Error
  /-- The previous content of the room handed out, by offset. -/
  stale : Nat → Byte

/-- The method `PrependBytes`. -/
def SerializeBuffer.PrependBytes (b : SerializeBuffer) (num : Nat) : Except Error (List Byte) :=
  match b.err with
  | some e => .error e
  | none => .ok ((List.range num).map b.stale)

/-- The state after a call of `SerializeTo`: the receiver, the final content of the room
obtained from `PrependBytes` (`none` when no room was obtained), and what was returned. -/
structure Serialized (α : Type) where
  layer : α
  out : Option (List Byte)
  ret : Ret
  deriving DecidableEq, Repr

/-- The assignment `bytes[i] = v`. -/
def store (bytes : List Byte) (i : Nat) (v : Byte) : Except Panic (List Byte) :=
  if i < bytes.length then .ok (bytes.set i v) else .error (.indexOutOfRange i bytes.length)

/-- The conversion `uint16(n)` of an `int` that is not negative. -/
def uint16 (n : Nat) : Word16 :=
  ⟨n % 65536, Nat.mod_lt _ (by decide)⟩

/-- The conversion `byte(v >> 8)` of a `uint16`. -/
def hiByte (v : Word16) : Byte :=
  ⟨(v.val >>> 8) % 256, Nat.mod_lt _ (by decide)⟩

/-- The conversion `byte(v)` of a `uint16`. -/
def loByte (v : Word16) : Byte :=
  ⟨v.val % 256, Nat.mod_lt _ (by decide)⟩

/-- The call `binary.BigEndian.PutUint16(bytes[off:], v)`: after the bounds check of the
second byte, `b[0] = byte(v >> 8)` and `b[1] = byte(v)`. -/
def BigEndian.PutUint16 (bytes : List Byte) (off : Nat) (v : Word16) : Except Panic (List Byte) :=
  if off ≤ bytes.length then
    if off + 1 < bytes.length then
      .ok ((bytes.set off (hiByte v)).set (off + 1) (loByte v))
    else .error (.indexOutOfRange 1 (bytes.length - off))
  else .error (.sliceBoundsOutOfRange off bytes.length bytes.length)

/-- The call `copy(bytes[lo:hi], src)`: the first `min (hi - lo) (len src)` elements of
`src` overwrite `bytes` from offset `lo`. -/
def copyInto (bytes : List Byte) (lo hi : Nat) (src : Slice) : Except Panic (List Byte) :=
  if lo ≤ hi ∧ hi ≤ bytes.length then
    .ok (bytes.take lo ++ src.bytes.take (hi - lo) ++ bytes.drop (lo + min (hi - lo) src.len))
  else .error (.sliceBoundsOutOfRange lo hi bytes.length)

/-- The builtin `append(s, t...)`: appending nothing to `nil` leaves `nil`. -/
def Slice.append (s t : Slice) : Slice :=
  match s, t.bytes with
  | none, [] => none
  | _, l => some (s.bytes ++ l)

/-- The second half of `CHAP.SerializeTo` (from `bytes[0] = chap.Code` on): the writes
into the room obtained from the buffer. -/
def CHAP.write (chap : CHAP) (bytes : List Byte) : Except Panic (List Byte) := do
  let bytes ← store bytes 0 chap.Code
  let bytes ← store bytes 1 chap.Identifier
  let bytes ← BigEndian.PutUint16 bytes 2 chap.Length
  if chap.Code = CHAPChallenge ∨ chap.Code = CHAPResponse then
    let bytes ← store bytes 4 chap.ValueSize
    let valueAndName : Slice := none
    let valueAndName := valueAndName.append chap.Value
    let valueAndName := valueAndName.append chap.Name
    copyInto bytes 5 bytes.length valueAndName
  else if chap.Code = CHAPSuccess ∨ chap.Code = CHAPFailure then
    copyInto bytes 4 bytes.length chap.Message
  else
    pure bytes

/-- The method `CHAP.SerializeTo`. -/
def CHAP.SerializeTo (chap : CHAP) (b : SerializeBuffer) (opts : SerializeOptions) :
    Serialized CHAP :=
  let size : Except Error Nat :=
    if chap.Code = CHAPChallenge ∨ chap.Code = CHAPResponse then
      if chap.Message ≠ none then .error (.chapMessageConflict chap.Code.val)
      else .ok (4 + (1 + chap.Value.len + chap.Name.len))
    else if chap.Code = CHAPSuccess ∨ chap.Code = CHAPFailure then
      if chap.Value ≠ none ∨ chap.Name ≠ none then .error (.chapValueNameConflict chap.Code.val)
      else .ok (4 + chap.Message.len)
    else .error (.chapInvalidCode chap.Code.val)
  match size with
  | .error e => ⟨chap, none, .error e⟩
  | .ok size =>
  match b.PrependBytes size with
  | .error e => ⟨chap, none, .error e⟩
  | .ok bytes =>
  let chap : CHAP := if opts.FixLengths then { chap with Length := uint16 size } else chap
  match chap.write bytes with
  | .error p => ⟨chap, some bytes, .panic p⟩
  | .ok bytes => ⟨chap, some bytes, .nil⟩

/-! ## IPCP -/

def IPCPOffer : Byte := 1
def IPCPSuccess : Byte := 2
def IPCPFailure : Byte := 3

/-- The layer `IPCP`; `net.IP` and `net.IPMask` are byte slices. -/
structure IPCP extends BaseLayer where
  Code : Byte
  Length : Word16
  Address : Slice
  SubnetMask : Slice
  Message : Slice
  deriving DecidableEq, Repr

/-- The 12 bytes `net` puts in front of an IPv4 address held in 16 bytes. -/
def v4InV6Prefix : List Byte := [0, 0, 0, 0, 0, 0, 0, 0, 0, 0, 0xff, 0xff]

/-- The function `net.IPv4`: the address in its 16-byte form. -/
def net.IPv4 (a b c d : Byte) : Slice :=
  some (v4InV6Prefix ++ [a, b, c, d])

/-- The method `net.IP.To4`: a 4-byte address as it is, the last four bytes of a 16-byte
address that starts with `v4InV6Prefix`, and `nil` otherwise. -/
def net.To4 (ip : Slice) : Slice :=
  if ip.len = 4 then ip
  else if ip.len = 16 ∧ (ip.bytes.take 10).all (fun x => x = 0) ∧ ip.index 10 = some 0xff
      ∧ ip.index 11 = some 0xff then
    ip.map fun l => (l.take 16).drop 12
  else none

/-- The function `net.IPv4Mask`. -/
def net.IPv4Mask (a b c d : Byte) : Slice :=
  some [a, b, c, d]

/-- The expression `s[i]` with its panic. -/
def Slice.at (s : Slice) (i : Nat) : Except Panic Byte :=
  match s.index i with
  | some v => .ok v
  | none => .error (.indexOutOfRange i s.len)

/-- The method `IPCP.DecodeFromBytes`. -/
def IPCP.DecodeFromBytes (ipcp : IPCP) (data : Slice) (df : DecodeFeedback) : Decoded IPCP :=
  if data.len < 3 then
    ⟨ipcp, df.SetTruncated, .error (.ipcpTooShort data.len)⟩
  else
  match data.index 0 with
  | none => ⟨ipcp, df, .panic (.indexOutOfRange 0 data.len)⟩
  | some code =>
  let ipcp := { ipcp with Code := code }
  match (data.slice 1 3).bind BigEndian.Uint16 with
  | none => ⟨ipcp, df, .panic (.sliceBoundsOutOfRange 1 3 data.len)⟩
  | some length =>
  let ipcp := { ipcp with Length := length }
  if data.len < ipcp.Length.val then
    ⟨ipcp, df.SetTruncated, .error (.ipcpTooShortExpected data.len ipcp.Length.val)⟩
  else
  let body : Decoded IPCP :=
    if ipcp.Code = IPCPOffer then
      let address : Except Panic Slice := do
        let a ← data.at 3
        let b ← data.at 4
        let c ← data.at 5
        let d ← data.at 6
        pure (net.To4 (net.IPv4 a b c d))
      match address with
      | .error p => ⟨ipcp, df, .panic p⟩
      | .ok address =>
      let ipcp := { ipcp with Address := address }
      let mask : Except Panic Slice := do
        let a ← data.at 7
        let b ← data.at 8
        let c ← data.at 9
        let d ← data.at 10
        pure (net.IPv4Mask a b c d)
      match mask with
      | .error p => ⟨ipcp, df, .panic p⟩
      | .ok mask =>
      ⟨{ ipcp with SubnetMask := mask, Message := none }, df, .nil⟩
    else if ipcp.Code = IPCPSuccess ∨ ipcp.Code = IPCPFailure then
      match data.sliceFrom 3 with
      | none => ⟨ipcp, df, .panic (.sliceBoundsOutOfRange 3 data.len data.len)⟩
      | some message =>
      ⟨{ ipcp with Message := message, Address := none, SubnetMask := none }, df, .nil⟩
    else
      ⟨ipcp, df, .error (.ipcpInvalidCode ipcp.Code.val)⟩
  match body.ret with
  | .nil =>
    let ipcp := body.layer
    match data.sliceTo ipcp.Length.val with
    | none => ⟨ipcp, body.df, .panic (.sliceBoundsOutOfRange 0 ipcp.Length.val data.len)⟩
    | some contents =>
    let ipcp := { ipcp with Contents := contents }
    match data.sliceFrom ipcp.Length.val with
    | none => ⟨ipcp, body.df, .panic (.sliceBoundsOutOfRange ipcp.Length.val data.len data.len)⟩
    | some payload =>
    ⟨{ ipcp with Payload := payload }, body.df, .nil⟩
  | _ => body

/-- The second half of `IPCP.SerializeTo` (from `bytes[0] = ipcp.Code` on): the writes
into the room obtained from the buffer. -/
def IPCP.write (ipcp : IPCP) (bytes : List Byte) : Except Panic (List Byte) := do
  let bytes ← store bytes 0 ipcp.Code
  let bytes ← BigEndian.PutUint16 bytes 1 ipcp.Length
  if ipcp.Code = IPCPOffer then
    let bytes ← copyInto bytes 3 7 (net.To4 ipcp.Address)
    copyInto bytes 7 11 ipcp.SubnetMask
  else if ipcp.Code = IPCPSuccess ∨ ipcp.Code = IPCPFailure then
    copyInto bytes 3 bytes.length ipcp.Message
  else
    pure bytes

/-- The method `IPCP.SerializeTo`. -/
def IPCP.SerializeTo (ipcp : IPCP) (b : SerializeBuffer) (opts : SerializeOptions) :
    Serialized IPCP :=
  let size : Except Error Nat :=
    if ipcp.Code = IPCPOffer then
      if ipcp.Message ≠ none then .error (.ipcpMessageConflict ipcp.Code.val)
      else .ok (3 + 8)
    else if ipcp.Code = IPCPSuccess ∨ ipcp.Code = IPCPFailure then
      if ipcp.Address ≠ none ∨ ipcp.SubnetMask ≠ none then
        .error (.ipcpAddressMaskConflict ipcp.Code.val)
      else .ok (3 + ipcp.Message.len)
    else .error (.ipcpInvalidCode ipcp.Code.val)
  match size with
  | .error e => ⟨ipcp, none, .error e⟩
  | .ok size =>
  match b.PrependBytes size with
  | .error e => ⟨ipcp, none, .error e⟩
  | .ok bytes =>
  let ipcp : IPCP := if opts.FixLengths then { ipcp with Length := uint16 size } else ipcp
  match ipcp.write bytes with
  | .error p => ⟨ipcp, some bytes, .panic p⟩
  | .ok bytes => ⟨ipcp, some bytes, .nil⟩

/-- The zero value `&IPCP{}` that `decodeIPCP` decodes into. -/
def IPCP.zero : IPCP :=
  { Contents := none, Payload := none, Code := 0, Length := 0, Address := none,
    SubnetMask := none, Message := none }

/-- A buffer whose `PrependBytes` succeeds and hands out zeroed room. -/
def SerializeBuffer.fresh : SerializeBuffer := ⟨none, fun _ => 0⟩


/-! ## SCL2P -/

/-- Modelled from the spec: the type `SCL2PProtocol` of the selector, which is declared
outside the three source files; the specification gives it as a single byte, and the code
converts it from and to `byte`. -/
abbrev SCL2PProtocol := Byte

/-- The layer `SCL2P`. -/
structure SCL2P extends BaseLayer where
  Protocol : SCL2PProtocol
  deriving DecidableEq, Repr

/-- The method `SCL2P.DecodeFromBytes`. -/
def SCL2P.DecodeFromBytes (scl2p : SCL2P) (data : Slice) (df : DecodeFeedback) : Decoded SCL2P :=
  if data.len < 1 then
    ⟨scl2p, df.SetTruncated, .error .scl2pTooShort⟩
  else
  match data.index 0 with
  | none => ⟨scl2p, df, .panic (.indexOutOfRange 0 data.len)⟩
  | some selector =>
  let scl2p := { scl2p with Protocol := selector }
  match data.sliceTo 1 with
  | none => ⟨scl2p, df, .panic (.sliceBoundsOutOfRange 0 1 data.len)⟩
  | some contents =>
  let scl2p := { scl2p with Contents := contents }
  match data.sliceFrom 1 with
  | none => ⟨scl2p, df, .panic (.sliceBoundsOutOfRange 1 data.len data.len)⟩
  | some payload =>
  ⟨{ scl2p with Payload := payload }, df, .nil⟩

/-- The method `SCL2P.SerializeTo`. -/
def SCL2P.SerializeTo (scl2p : SCL2P) (b : SerializeBuffer) (_opts : SerializeOptions) :
    Serialized SCL2P :=
  match b.PrependBytes 1 with
  | .error e => ⟨scl2p, none, .error e⟩
  | .ok bytes =>
  match store bytes 0 scl2p.Protocol with
  | .error p => ⟨scl2p, some bytes, .panic p⟩
  | .ok bytes => ⟨scl2p, some bytes, .nil⟩

/-- The zero value `&SCL2P{}` that `decodeSCL2P` decodes into. -/
def SCL2P.zero : SCL2P :=
  { Contents := none, Payload := none, Protocol := 0 }

/-! ## The big-endian length field -/

/-- The 16-bit number whose high byte is `hi` and whose low byte is `lo`. -/
def be16 (hi lo : Byte) : Word16 :=
  ⟨hi.val * 256 + lo.val, by omega⟩

theorem or_shift_eq (hi lo : Byte) :
    (lo.val ||| (hi.val <<< 8) % 65536) % 65536 = hi.val * 256 + lo.val := by
  have h1 := hi.isLt
  have h2 := lo.isLt
  have h3 : hi.val <<< 8 = 2 ^ 8 * hi.val := by rw [Nat.shiftLeft_eq, Nat.mul_comm]
  have h4 : 2 ^ 8 * hi.val + lo.val = 2 ^ 8 * hi.val ||| lo.val :=
    Nat.mul_add_lt_is_or (by omega) _
  have h5 : (hi.val <<< 8) % 65536 = 2 ^ 8 * hi.val := by
    rw [h3]; exact Nat.mod_eq_of_lt (by omega)
  rw [h5, Nat.lor_comm, ← h4, Nat.mod_eq_of_lt (by omega)]
  omega

theorem Uint16_pair (hi lo : Byte) (rest : List Byte) :
    BigEndian.Uint16 (some (hi :: lo :: rest)) = some (be16 hi lo) := by
  simp [BigEndian.Uint16, Slice.index, Slice.bytes, be16, or_shift_eq]

theorem chap_decode_short (chap : CHAP) (df : DecodeFeedback) (data : Slice)
    (h : data.len < 4) :
    chap.DecodeFromBytes data df =
      ⟨chap, df.SetTruncated, .error (.chapTooShort data.len)⟩ := by
  simp [CHAP.DecodeFromBytes, h]

theorem chap_decode_declared (chap : CHAP) (df : DecodeFeedback) (c i h l : Byte)
    (rest : List Byte) (hl : 4 + rest.length < (be16 h l).val) :
    chap.DecodeFromBytes (some (c :: i :: h :: l :: rest)) df =
      ⟨{ chap with Code := c, Identifier := i, Length := be16 h l }, df.SetTruncated,
        .error (.chapTooShortExpected (c :: i :: h :: l :: rest).length (be16 h l).val)⟩ := by
  have e0 : ¬ (rest.length + 1 + 1 + 1 + 1 < 4) := by omega
  have e1 : rest.length + 1 + 1 + 1 + 1 < (be16 h l).val := by omega
  simp [CHAP.DecodeFromBytes, Slice.len, Slice.index, Slice.bytes, Slice.slice, Uint16_pair,
    e0, e1]

theorem chap_decode_no_value_size (chap : CHAP) (df : DecodeFeedback) (c i h l : Byte)
    (hc : c = CHAPChallenge ∨ c = CHAPResponse) (hl : (be16 h l).val ≤ 4) :
    chap.DecodeFromBytes (some [c, i, h, l]) df =
      ⟨{ chap with Code := c, Identifier := i, Length := be16 h l }, df,
        .panic (.indexOutOfRange 4 4)⟩ := by
  have e1 : ¬ (4 < (be16 h l).val) := by omega
  simp [CHAP.DecodeFromBytes, Slice.len, Slice.index, Slice.bytes, Slice.slice, Uint16_pair,
    e1, hc]

theorem chap_decode_value_short (chap : CHAP) (df : DecodeFeedback) (c i h l v : Byte)
    (rest : List Byte) (hc : c = CHAPChallenge ∨ c = CHAPResponse)
    (hl : (be16 h l).val ≤ 5 + rest.length) (hv : rest.length < v.val) :
    chap.DecodeFromBytes (some (c :: i :: h :: l :: v :: rest)) df =
      ⟨{ chap with Code := c, Identifier := i, Length := be16 h l, ValueSize := v },
        df.SetTruncated, .error (.chapValueTooShort v.val)⟩ := by
  have e0 : ¬ (rest.length + 1 + 1 + 1 + 1 + 1 < 4) := by omega
  have e1 : ¬ (rest.length + 1 + 1 + 1 + 1 + 1 < (be16 h l).val) := by omega
  have e2 : ((rest.length : Int) + 1 + 1 + 1 + 1 + 1 - 5 < (v.val : Int)) := by omega
  simp [CHAP.DecodeFromBytes, Slice.len, Slice.index, Slice.bytes, Slice.slice, Uint16_pair,
    e0, e1, e2, hc]

theorem chap_decode_wrap (chap : CHAP) (df : DecodeFeedback) (c i h l v : Byte)
    (rest : List Byte) (hc : c = CHAPChallenge ∨ c = CHAPResponse)
    (hl : (be16 h l).val ≤ 5 + rest.length) (hv : v.val ≤ rest.length) (hw : 251 ≤ v.val) :
    chap.DecodeFromBytes (some (c :: i :: h :: l :: v :: rest)) df =
      ⟨{ chap with Code := c, Identifier := i, Length := be16 h l, ValueSize := v }, df,
        .panic (.sliceBoundsOutOfRange 5 (v.val - 251) (c :: i :: h :: l :: v :: rest).length)⟩ := by
  have e0 : ¬ (rest.length + 1 + 1 + 1 + 1 + 1 < 4) := by omega
  have e1 : ¬ (rest.length + 1 + 1 + 1 + 1 + 1 < (be16 h l).val) := by omega
  have e2 : ¬ ((rest.length : Int) + 1 + 1 + 1 + 1 + 1 - 5 < (v.val : Int)) := by omega
  have e3 : (5 + v.val) % 256 = v.val - 251 := by have := v.isLt; omega
  have e4 : ¬ (5 ≤ v.val - 251) := by have := v.isLt; omega
  simp [CHAP.DecodeFromBytes, Slice.len, Slice.index, Slice.bytes, Slice.slice, Uint16_pair,
    e0, e1, e2, e3, e4, hc]

theorem chap_decode_challenge (chap : CHAP) (df : DecodeFeedback) (c i h l v : Byte)
    (rest : List Byte) (hc : c = CHAPChallenge ∨ c = CHAPResponse)
    (hl : (be16 h l).val ≤ 5 + rest.length) (hv : v.val ≤ rest.length) (hw : v.val ≤ 250) :
    chap.DecodeFromBytes (some (c :: i :: h :: l :: v :: rest)) df =
      ⟨{ Contents := some ((c :: i :: h :: l :: v :: rest).take (be16 h l).val),
         Payload := some ((c :: i :: h :: l :: v :: rest).drop (be16 h l).val),
         Code := c, Identifier := i, Length := be16 h l, ValueSize := v,
         Value := some (rest.take v.val), Name := some (rest.drop v.val), Message := none },
        df, .nil⟩ := by
  have e0 : ¬ (rest.length + 1 + 1 + 1 + 1 + 1 < 4) := by omega
  have e1 : ¬ (rest.length + 1 + 1 + 1 + 1 + 1 < (be16 h l).val) := by omega
  have e2 : ¬ ((rest.length : Int) + 1 + 1 + 1 + 1 + 1 - 5 < (v.val : Int)) := by omega
  have e3 : (5 + v.val) % 256 = v.val + 5 := by omega
  have e4 : (be16 h l).val ≤ rest.length + 1 + 1 + 1 + 1 + 1 := by omega
  simp [CHAP.DecodeFromBytes, Slice.len, Slice.index, Slice.bytes, Slice.slice, Slice.sliceFrom,
    Slice.sliceTo, Uint16_pair, e0, e1, e2, e3, e4, hc, hv]

theorem chap_decode_success (chap : CHAP) (df : DecodeFeedback) (c i h l : Byte)
    (rest : List Byte) (hc : c = CHAPSuccess ∨ c = CHAPFailure)
    (hl : (be16 h l).val ≤ 4 + rest.length) :
    chap.DecodeFromBytes (some (c :: i :: h :: l :: rest)) df =
      ⟨{ Contents := some ((c :: i :: h :: l :: rest).take (be16 h l).val),
         Payload := some ((c :: i :: h :: l :: rest).drop (be16 h l).val),
         Code := c, Identifier := i, Length := be16 h l, ValueSize := 0,
         Value := none, Name := none, Message := some rest }, df, .nil⟩ := by
  have hc' : ¬ (c = CHAPChallenge ∨ c = CHAPResponse) := by
    rcases hc with rfl | rfl <;> decide
  have e0 : ¬ (rest.length + 1 + 1 + 1 + 1 < 4) := by omega
  have e1 : ¬ (rest.length + 1 + 1 + 1 + 1 < (be16 h l).val) := by omega
  have e4 : (be16 h l).val ≤ rest.length + 1 + 1 + 1 + 1 := by omega
  simp [CHAP.DecodeFromBytes, Slice.len, Slice.index, Slice.bytes, Slice.slice, Slice.sliceFrom,
    Slice.sliceTo, Uint16_pair, e0, e1, e4, hc, hc']

theorem chap_decode_invalid (chap : CHAP) (df : DecodeFeedback) (c i h l : Byte)
    (rest : List Byte) (hc : ¬ (c = CHAPChallenge ∨ c = CHAPResponse))
    (hc' : ¬ (c = CHAPSuccess ∨ c = CHAPFailure)) (hl : (be16 h l).val ≤ 4 + rest.length) :
    chap.DecodeFromBytes (some (c :: i :: h :: l :: rest)) df =
      ⟨{ chap with Code := c, Identifier := i, Length := be16 h l }, df,
        .error (.chapInvalidCode c.val)⟩ := by
  have e0 : ¬ (rest.length + 1 + 1 + 1 + 1 < 4) := by omega
  have e1 : ¬ (rest.length + 1 + 1 + 1 + 1 < (be16 h l).val) := by omega
  simp [CHAP.DecodeFromBytes, Slice.len, Slice.index, Slice.bytes, Slice.slice, Uint16_pair,
    e0, e1, hc, hc']

/-! ## Serialization lemmas -/

theorem hiByte_be16 (h l : Byte) : hiByte (be16 h l) = h := by
  apply Fin.ext
  have h1 := h.isLt
  have h2 := l.isLt
  simp only [hiByte, be16, Nat.shiftRight_eq_div_pow]
  omega

theorem loByte_be16 (h l : Byte) : loByte (be16 h l) = l := by
  apply Fin.ext
  have h1 := h.isLt
  have h2 := l.isLt
  simp only [loByte, be16]
  omega

theorem be16_hiByte_loByte (v : Word16) : be16 (hiByte v) (loByte v) = v := by
  apply Fin.ext
  have h1 := v.isLt
  simp only [hiByte, loByte, be16, Nat.shiftRight_eq_div_pow]
  omega

@[simp] theorem Slice.bytes_none : Slice.bytes none = [] := rfl

@[simp] theorem Slice.bytes_some (l : List Byte) : Slice.bytes (some l) = l := rfl

theorem Slice.len_eq (s : Slice) : s.len = s.bytes.length := by
  cases s <;> rfl

theorem Slice.append_bytes (s t : Slice) : (s.append t).bytes = s.bytes ++ t.bytes := by
  cases s <;> cases t <;> simp [Slice.append, Slice.bytes]
  · rename_i l
    cases l <;> simp [Slice.bytes]

theorem prepend_ok (b : SerializeBuffer) (n : Nat) (hb : b.err = none) :
    ∃ bytes, b.PrependBytes n = .ok bytes ∧ bytes.length = n := by
  refine ⟨(List.range n).map b.stale, ?_, by simp⟩
  simp [SerializeBuffer.PrependBytes, hb]

theorem copyInto_full (front tail : List Byte) (src : Slice) (n : Nat)
    (hn : n = (front ++ tail).length) (h : tail.length = src.bytes.length) :
    copyInto (front ++ tail) front.length n src = .ok (front ++ src.bytes) := by
  subst hn
  have h1 : front.length ≤ (front ++ tail).length ∧ (front ++ tail).length ≤ (front ++ tail).length := by
    simp
  have h2 : (front ++ tail).length - front.length = src.bytes.length := by
    simp [h]
  rw [copyInto, if_pos h1, h2, Slice.len_eq]
  simp [h]

theorem chap_write_challenge (chap : CHAP) (b0 b1 b2 b3 b4 : Byte) (tail : List Byte)
    (hc : chap.Code = CHAPChallenge ∨ chap.Code = CHAPResponse)
    (ht : tail.length = chap.Value.len + chap.Name.len) :
    chap.write (b0 :: b1 :: b2 :: b3 :: b4 :: tail) =
      .ok (chap.Code :: chap.Identifier :: hiByte chap.Length :: loByte chap.Length ::
        chap.ValueSize :: (chap.Value.bytes ++ chap.Name.bytes)) := by
  have hs : tail.length = ((Slice.append none chap.Value).append chap.Name).bytes.length := by
    simp [Slice.append_bytes, ht, Slice.len_eq]
  have key := copyInto_full [chap.Code, chap.Identifier, hiByte chap.Length, loByte chap.Length,
    chap.ValueSize] tail ((Slice.append none chap.Value).append chap.Name) (tail.length + 5)
    (by simp) hs
  simp only [List.length_cons, List.length_nil, List.cons_append, List.nil_append] at key
  simp [CHAP.write, store, BigEndian.PutUint16, hc, bind, Except.bind, key, Slice.append_bytes]

theorem chap_write_success (chap : CHAP) (b0 b1 b2 b3 : Byte) (tail : List Byte)
    (hc : chap.Code = CHAPSuccess ∨ chap.Code = CHAPFailure)
    (ht : tail.length = chap.Message.len) :
    chap.write (b0 :: b1 :: b2 :: b3 :: tail) =
      .ok (chap.Code :: chap.Identifier :: hiByte chap.Length :: loByte chap.Length ::
        chap.Message.bytes) := by
  have hc' : ¬ (chap.Code = CHAPChallenge ∨ chap.Code = CHAPResponse) := by
    rcases hc with h | h <;> rw [h] <;> decide
  have hs : tail.length = chap.Message.bytes.length := by
    simp [ht, Slice.len_eq]
  have key := copyInto_full [chap.Code, chap.Identifier, hiByte chap.Length, loByte chap.Length]
    tail chap.Message (tail.length + 4) (by simp) hs
  simp only [List.length_cons, List.length_nil, List.cons_append, List.nil_append] at key
  simp [CHAP.write, store, BigEndian.PutUint16, hc, hc', bind, Except.bind, key]

theorem exists_cons5 (l : List Byte) (k : Nat) (h : l.length = 4 + (1 + k)) :
    ∃ b0 b1 b2 b3 b4 tail, l = b0 :: b1 :: b2 :: b3 :: b4 :: tail ∧ tail.length = k := by
  rcases l with _ | ⟨b0, _ | ⟨b1, _ | ⟨b2, _ | ⟨b3, _ | ⟨b4, tail⟩⟩⟩⟩⟩
  all_goals simp at h
  all_goals first | omega | exact ⟨b0, b1, b2, b3, b4, tail, rfl, by omega⟩

theorem exists_cons4 (l : List Byte) (k : Nat) (h : l.length = 4 + k) :
    ∃ b0 b1 b2 b3 tail, l = b0 :: b1 :: b2 :: b3 :: tail ∧ tail.length = k := by
  rcases l with _ | ⟨b0, _ | ⟨b1, _ | ⟨b2, _ | ⟨b3, tail⟩⟩⟩⟩
  all_goals simp at h
  all_goals first | omega | exact ⟨b0, b1, b2, b3, tail, rfl, by omega⟩

theorem chap_serialize_challenge (chap : CHAP) (b : SerializeBuffer) (opts : SerializeOptions)
    (hc : chap.Code = CHAPChallenge ∨ chap.Code = CHAPResponse) (hm : chap.Message = none)
    (hb : b.err = none) (len : Word16)
    (hlen : len = if opts.FixLengths then uint16 (4 + (1 + chap.Value.len + chap.Name.len))
      else chap.Length) :
    chap.SerializeTo b opts =
      ⟨{ chap with Length := len },
        some (chap.Code :: chap.Identifier :: hiByte len :: loByte len :: chap.ValueSize ::
          (chap.Value.bytes ++ chap.Name.bytes)), .nil⟩ := by
  obtain ⟨bytes, hp, hn⟩ := prepend_ok b (4 + (1 + chap.Value.len + chap.Name.len)) hb
  obtain ⟨b0, b1, b2, b3, b4, tail, rfl, ht⟩ :=
    exists_cons5 bytes (chap.Value.len + chap.Name.len) (by omega)
  have hw := chap_write_challenge { chap with Length := len } b0 b1 b2 b3 b4 tail hc ht
  obtain ⟨base, code, ident, length, vs, value, name, message⟩ := chap
  simp only at hc hm hp hw hlen
  subst hm hlen
  cases hf : opts.FixLengths <;> simp only [hf, Bool.false_eq_true, ↓reduceIte] at hw <;>
    simp [CHAP.SerializeTo, hc, hp, hf, hw]

theorem chap_serialize_success (chap : CHAP) (b : SerializeBuffer) (opts : SerializeOptions)
    (hc : chap.Code = CHAPSuccess ∨ chap.Code = CHAPFailure) (hv : chap.Value = none)
    (hn : chap.Name = none) (hb : b.err = none) (len : Word16)
    (hlen : len = if opts.FixLengths then uint16 (4 + chap.Message.len) else chap.Length) :
    chap.SerializeTo b opts =
      ⟨{ chap with Length := len },
        some (chap.Code :: chap.Identifier :: hiByte len :: loByte len :: chap.Message.bytes),
        .nil⟩ := by
  have hc' : ¬ (chap.Code = CHAPChallenge ∨ chap.Code = CHAPResponse) := by
    rcases hc with h | h <;> rw [h] <;> decide
  obtain ⟨bytes, hp, hl⟩ := prepend_ok b (4 + chap.Message.len) hb
  obtain ⟨b0, b1, b2, b3, tail, rfl, ht⟩ := exists_cons4 bytes _ hl
  have hw := chap_write_success { chap with Length := len } b0 b1 b2 b3 tail hc ht
  obtain ⟨base, code, ident, length, vs, value, name, message⟩ := chap
  simp only at hc hc' hv hn hp hw hlen
  subst hv hn hlen
  cases hf : opts.FixLengths <;> simp only [hf, Bool.false_eq_true, ↓reduceIte] at hw <;>
    simp [CHAP.SerializeTo, hc, hc', hp, hf, hw]

/-! ## Buffers by their first bytes -/

theorem Slice.cons4_of_index (data : Slice) (lo : Byte) (h3 : data.index 3 = some lo) :
    ∃ c i hi rest, data = some (c :: i :: hi :: lo :: rest) := by
  rcases data with _ | l
  · simp [Slice.index] at h3
  · rcases l with _ | ⟨c, _ | ⟨i, _ | ⟨hi, _ | ⟨lo', rest⟩⟩⟩⟩
    all_goals simp [Slice.index] at h3
    exact ⟨c, i, hi, rest, by rw [h3]⟩

theorem Slice.cons4_of_len (data : Slice) (h : 4 ≤ data.len) :
    ∃ c i hi lo rest, data = some (c :: i :: hi :: lo :: rest) := by
  rcases data with _ | l
  · simp [Slice.len] at h
  · rcases l with _ | ⟨c, _ | ⟨i, _ | ⟨hi, _ | ⟨lo, rest⟩⟩⟩⟩
    all_goals simp [Slice.len] at h
    exact ⟨c, i, hi, lo, rest, rfl⟩

/-- A successful `CHAP.DecodeFromBytes` went through one of its two successful paths. -/
theorem chap_decode_nil_inv (chap : CHAP) (df : DecodeFeedback) (data : Slice)
    (hd : (chap.DecodeFromBytes data df).ret = .nil) :
    (∃ c i h l v rest, data = some (c :: i :: h :: l :: v :: rest) ∧
        (c = CHAPChallenge ∨ c = CHAPResponse) ∧ (be16 h l).val ≤ 5 + rest.length ∧
        v.val ≤ rest.length ∧ v.val ≤ 250) ∨
    (∃ c i h l rest, data = some (c :: i :: h :: l :: rest) ∧
        (c = CHAPSuccess ∨ c = CHAPFailure) ∧ (be16 h l).val ≤ 4 + rest.length) := by
  by_cases h4 : data.len < 4
  · rw [chap_decode_short chap df data h4] at hd
    simp at hd
  obtain ⟨c, i, h, l, rest, rfl⟩ := Slice.cons4_of_len data (by omega)
  by_cases hl : 4 + rest.length < (be16 h l).val
  · rw [chap_decode_declared chap df c i h l rest hl] at hd
    simp at hd
  by_cases hc : c = CHAPChallenge ∨ c = CHAPResponse
  · rcases rest with _ | ⟨v, rest⟩
    · rw [chap_decode_no_value_size chap df c i h l hc (by simpa using hl)] at hd
      simp at hd
    · simp only [List.length_cons] at hl
      by_cases hv : rest.length < v.val
      · rw [chap_decode_value_short chap df c i h l v rest hc (by omega) hv] at hd
        simp at hd
      by_cases hw : 251 ≤ v.val
      · rw [chap_decode_wrap chap df c i h l v rest hc (by omega) (by omega) hw] at hd
        simp at hd
      exact Or.inl ⟨c, i, h, l, v, rest, rfl, hc, by omega, by omega, by omega⟩
  by_cases hc' : c = CHAPSuccess ∨ c = CHAPFailure
  · exact Or.inr ⟨c, i, h, l, rest, rfl, hc', by omega⟩
  · rw [chap_decode_invalid chap df c i h l rest hc hc' (by omega)] at hd
    simp at hd

/-! ## CHAP: decoding -/

/-- A Challenge of 256 bytes whose value field fills all 251 bytes after the header. -/
def wrapBuffer : Slice :=
  some ([1, 0, 1, 0, 251] ++ List.replicate 251 0)

set_option maxRecDepth 100000 in
/-- C3, at a buffer that meets its conditions: 256 bytes, code Challenge, declared length
256, value size 251 with 251 bytes after the header. `DecodeFromBytes` does not succeed:
the bound `5+chap.ValueSize` is a `uint8` sum, 256 wraps to 0, and the slice expression
`data[5:0]` panics. -/
theorem chap_decode_wrap_at_251 :
    wrapBuffer.len = 256 ∧ wrapBuffer.index 0 = some CHAPChallenge ∧
      wrapBuffer.index 2 = some 1 ∧ wrapBuffer.index 3 = some 0 ∧
      (be16 1 0).val ≤ wrapBuffer.len ∧ wrapBuffer.index 4 = some 251 ∧
      251 ≤ wrapBuffer.len - 5 ∧
      (CHAP.zero.DecodeFromBytes wrapBuffer DecodeFeedback.fresh).ret =
        .panic (.sliceBoundsOutOfRange 5 0 256) := by
  decide

/-- C4: a buffer of fewer than 4 bytes, a buffer whose declared length (bytes 2-3, big
endian) exceeds its length, and a Challenge/Response buffer of at least 5 bytes whose
declared length fits but whose value size (byte 4) exceeds the bytes after the header, each
make `CHAP.DecodeFromBytes` return a truncation error after exactly one `SetTruncated`. -/
theorem chap_decode_truncated (chap : CHAP) (df : DecodeFeedback) (data : Slice)
    (h : data.len < 4 ∨
      (∃ hi lo, data.index 2 = some hi ∧ data.index 3 = some lo ∧
        data.len < (be16 hi lo).val) ∨
      (∃ c hi lo v, data.index 0 = some c ∧ (c = CHAPChallenge ∨ c = CHAPResponse) ∧
        data.index 2 = some hi ∧ data.index 3 = some lo ∧ data.index 4 = some v ∧
        (be16 hi lo).val ≤ data.len ∧ (data.len : Int) - 5 < (v.val : Int))) :
    ∃ e, (chap.DecodeFromBytes data df).ret = .error e ∧ e.kind = .Truncated ∧
      (chap.DecodeFromBytes data df).df.truncatedCalls = df.truncatedCalls + 1 := by
  rcases h with h | ⟨hi, lo, h2, h3, hl⟩ | ⟨c, hi, lo, v, h0, hc, h2, h3, h4, hl, hv⟩
  · rw [chap_decode_short chap df data h]
    exact ⟨_, rfl, rfl, rfl⟩
  · obtain ⟨c, i, hi', rest, rfl⟩ := Slice.cons4_of_index data lo h3
    simp [Slice.index] at h2
    subst h2
    simp only [Slice.len, List.length_cons] at hl
    rw [chap_decode_declared chap df c i hi' lo rest (by omega)]
    exact ⟨_, rfl, rfl, rfl⟩
  · obtain ⟨c', i, hi', rest, rfl⟩ := Slice.cons4_of_index data lo h3
    simp [Slice.index] at h0 h2
    subst h0 h2
    rcases rest with _ | ⟨v', rest⟩
    · simp [Slice.index] at h4
    simp [Slice.index] at h4
    subst h4
    simp only [Slice.len, List.length_cons] at hl hv
    rw [chap_decode_value_short chap df c' i hi' lo v' rest hc (by omega) (by omega)]
    exact ⟨_, rfl, rfl, rfl⟩

/-- Witness of `chap_decode_truncated`: 3 bytes; 4 bytes declaring 5; a Challenge of 6 bytes
whose value size is 2. -/
theorem chap_decode_truncated_witness :
    (∃ e, (CHAP.zero.DecodeFromBytes (some [1, 5, 0]) DecodeFeedback.fresh).ret = .error e ∧
      e.kind = .Truncated ∧
      (CHAP.zero.DecodeFromBytes (some [1, 5, 0]) DecodeFeedback.fresh).df.truncatedCalls
        = DecodeFeedback.fresh.truncatedCalls + 1) ∧
    (∃ e, (CHAP.zero.DecodeFromBytes (some [3, 5, 0, 5]) DecodeFeedback.fresh).ret = .error e ∧
      e.kind = .Truncated ∧
      (CHAP.zero.DecodeFromBytes (some [3, 5, 0, 5]) DecodeFeedback.fresh).df.truncatedCalls
        = DecodeFeedback.fresh.truncatedCalls + 1) ∧
    (∃ e, (CHAP.zero.DecodeFromBytes (some [1, 5, 0, 6, 2, 9]) DecodeFeedback.fresh).ret
        = .error e ∧ e.kind = .Truncated ∧
      (CHAP.zero.DecodeFromBytes (some [1, 5, 0, 6, 2, 9]) DecodeFeedback.fresh).df.truncatedCalls
        = DecodeFeedback.fresh.truncatedCalls + 1) :=
  ⟨chap_decode_truncated CHAP.zero DecodeFeedback.fresh (some [1, 5, 0]) (Or.inl (by decide)),
   chap_decode_truncated CHAP.zero DecodeFeedback.fresh (some [3, 5, 0, 5])
     (Or.inr (Or.inl ⟨0, 5, rfl, rfl, by decide⟩)),
   chap_decode_truncated CHAP.zero DecodeFeedback.fresh (some [1, 5, 0, 6, 2, 9])
     (Or.inr (Or.inr ⟨1, 0, 6, 2, rfl, Or.inl rfl, rfl, rfl, rfl, by decide, by decide⟩))⟩

/-- C5, at a buffer that meets its conditions: 4 bytes, code Challenge, declared length 4.
`DecodeFromBytes` does not return a truncation error: it reads `data[4]` without a length
check of its own and panics with index 4 out of range for length 4, and `SetTruncated`
is not called. -/
theorem chap_decode_four_byte_challenge :
    (CHAP.zero.DecodeFromBytes (some [1, 0, 0, 4]) DecodeFeedback.fresh).ret =
        .panic (.indexOutOfRange 4 4) ∧
      (CHAP.zero.DecodeFromBytes (some [1, 0, 0, 4]) DecodeFeedback.fresh).df.truncatedCalls
        = 0 := by
  rw [chap_decode_no_value_size CHAP.zero DecodeFeedback.fresh 1 0 0 4 (Or.inl rfl)
    (by decide)]
  exact ⟨rfl, rfl⟩

/-- C10: on a buffer of at least 4 bytes with code Success or Failure and a declared length
within the buffer, `CHAP.DecodeFromBytes` returns `nil` with `Message` all the bytes from
offset 4 to the end of the buffer, `ValueSize` 0, and `Value` and `Name` `nil`. -/
theorem chap_decode_success_failure (chap : CHAP) (df : DecodeFeedback) (data : Slice)
    (c hi lo : Byte) (h0 : data.index 0 = some c) (hc : c = CHAPSuccess ∨ c = CHAPFailure)
    (h2 : data.index 2 = some hi) (h3 : data.index 3 = some lo)
    (hl : (be16 hi lo).val ≤ data.len) :
    (chap.DecodeFromBytes data df).ret = .nil ∧
      (chap.DecodeFromBytes data df).layer.Message = some (data.bytes.drop 4) ∧
      (chap.DecodeFromBytes data df).layer.ValueSize = 0 ∧
      (chap.DecodeFromBytes data df).layer.Value = none ∧
      (chap.DecodeFromBytes data df).layer.Name = none := by
  obtain ⟨c', i, hi', rest, rfl⟩ := Slice.cons4_of_index data lo h3
  simp [Slice.index] at h0 h2
  subst h0 h2
  simp only [Slice.len, List.length_cons] at hl
  rw [chap_decode_success chap df c' i hi' lo rest hc (by omega)]
  simp

/-- Witness of `chap_decode_success_failure`: a Success of 7 bytes that declares 5, so
that two bytes of the message lie beyond the declared length. -/
theorem chap_decode_success_failure_witness :
    (CHAP.zero.DecodeFromBytes (some [3, 9, 0, 5, 0x6f, 0x6b, 0x21]) DecodeFeedback.fresh).ret
        = .nil ∧
      (CHAP.zero.DecodeFromBytes (some [3, 9, 0, 5, 0x6f, 0x6b, 0x21])
        DecodeFeedback.fresh).layer.Message
        = some ((Slice.bytes (some [3, 9, 0, 5, 0x6f, 0x6b, 0x21])).drop 4) ∧
      (CHAP.zero.DecodeFromBytes (some [3, 9, 0, 5, 0x6f, 0x6b, 0x21])
        DecodeFeedback.fresh).layer.ValueSize = 0 ∧
      (CHAP.zero.DecodeFromBytes (some [3, 9, 0, 5, 0x6f, 0x6b, 0x21])
        DecodeFeedback.fresh).layer.Value = none ∧
      (CHAP.zero.DecodeFromBytes (some [3, 9, 0, 5, 0x6f, 0x6b, 0x21])
        DecodeFeedback.fresh).layer.Name = none :=
  chap_decode_success_failure CHAP.zero DecodeFeedback.fresh (some [3, 9, 0, 5, 0x6f, 0x6b, 0x21])
    3 0 5 rfl (Or.inl rfl) rfl rfl (by decide)

/-! ## CHAP: decoding and serializing together -/

/-- The Challenge record whose value has 251 bytes: code 1, value size 251, no name, no
message. -/
def wrapRecord : CHAP :=
  { CHAP.zero with Code := CHAPChallenge, ValueSize := 251, Value := some (List.replicate 251 0) }

set_option maxRecDepth 100000 in
/-- C1, at a valid record: a Challenge whose value has 251 bytes (value size 251, message
absent, encoded size 256) serializes with `FixLengths` to 256 bytes, and
`DecodeFromBytes` of those bytes does not return the record: `5+chap.ValueSize` wraps to 0
in `uint8` and `data[5:0]` panics. -/
theorem chap_round_trip_wrap_at_251 :
    wrapRecord.Code = CHAPChallenge ∧ wrapRecord.Message = none ∧
      wrapRecord.ValueSize.val = wrapRecord.Value.len ∧
      (wrapRecord.SerializeTo SerializeBuffer.fresh ⟨true, false⟩).ret = .nil ∧
      (wrapRecord.SerializeTo SerializeBuffer.fresh ⟨true, false⟩).out = wrapBuffer ∧
      (CHAP.zero.DecodeFromBytes (wrapRecord.SerializeTo SerializeBuffer.fresh ⟨true, false⟩).out
        DecodeFeedback.fresh).ret = .panic (.sliceBoundsOutOfRange 5 0 256) := by
  decide

/-- C7: when `CHAP.DecodeFromBytes` returns `nil` on a buffer, `SerializeTo` of the decoded
layer without `FixLengths`, into a buffer that grants the room, returns `nil` and has
written exactly the bytes of the buffer (whatever the declared length is). -/
theorem chap_reencode_identity (chap : CHAP) (df : DecodeFeedback) (data : Slice)
    (b : SerializeBuffer) (opts : SerializeOptions)
    (hd : (chap.DecodeFromBytes data df).ret = .nil) (hb : b.err = none)
    (ho : opts.FixLengths = false) :
    ((chap.DecodeFromBytes data df).layer.SerializeTo b opts).ret = .nil ∧
      ((chap.DecodeFromBytes data df).layer.SerializeTo b opts).out = data := by
  rcases chap_decode_nil_inv chap df data hd with
    ⟨c, i, h, l, v, rest, rfl, hc, hl, hv, hw⟩ | ⟨c, i, h, l, rest, rfl, hc, hl⟩
  · rw [chap_decode_challenge chap df c i h l v rest hc hl hv hw]
    simp only
    rw [chap_serialize_challenge _ b opts hc rfl hb (be16 h l) (by simp [ho])]
    simp [hiByte_be16, loByte_be16]
  · rw [chap_decode_success chap df c i h l rest hc hl]
    simp only
    rw [chap_serialize_success _ b opts hc rfl rfl hb (be16 h l) (by simp [ho])]
    simp [hiByte_be16, loByte_be16]

/-- The Challenge of the specification's scenario: 11 bytes, declared length 10, value
size 4, value AA BB CC DD, name "hi". -/
def scenarioBuffer : Slice :=
  some [0x01, 0x05, 0x00, 0x0A, 0x04, 0xAA, 0xBB, 0xCC, 0xDD, 0x68, 0x69]

/-- Witness of `chap_reencode_identity`: the 11-byte scenario, whose declared length is 10,
serializes back to the same 11 bytes. -/
theorem chap_reencode_identity_witness :
    (CHAP.zero.DecodeFromBytes scenarioBuffer DecodeFeedback.fresh).ret = .nil ∧
      (CHAP.zero.DecodeFromBytes scenarioBuffer DecodeFeedback.fresh).layer.Length.val = 10 ∧
      scenarioBuffer.len = 11 ∧
      ((CHAP.zero.DecodeFromBytes scenarioBuffer DecodeFeedback.fresh).layer.SerializeTo
        SerializeBuffer.fresh ⟨false, false⟩).ret = .nil ∧
      ((CHAP.zero.DecodeFromBytes scenarioBuffer DecodeFeedback.fresh).layer.SerializeTo
        SerializeBuffer.fresh ⟨false, false⟩).out = scenarioBuffer :=
  ⟨by decide, by decide, by decide,
    chap_reencode_identity CHAP.zero DecodeFeedback.fresh scenarioBuffer SerializeBuffer.fresh
      ⟨false, false⟩ (by decide) rfl rfl⟩

/-- C9 as stated fails on the 11-byte scenario: the decode succeeds with declared length
10 and value size 4, `buffer[5+valueSize : declaredLength]` is the single byte 68, and the
decoded name is 68 69: the byte at offset 10 is part of it. -/
theorem chap_decode_name_past_declared_length :
    (CHAP.zero.DecodeFromBytes scenarioBuffer DecodeFeedback.fresh).ret = .nil ∧
      (CHAP.zero.DecodeFromBytes scenarioBuffer DecodeFeedback.fresh).layer.Length.val = 10 ∧
      (CHAP.zero.DecodeFromBytes scenarioBuffer DecodeFeedback.fresh).layer.ValueSize.val = 4 ∧
      scenarioBuffer.slice (5 + 4) 10 = some (some [0x68]) ∧
      (CHAP.zero.DecodeFromBytes scenarioBuffer DecodeFeedback.fresh).layer.Name
        = some [0x68, 0x69] ∧
      some (CHAP.zero.DecodeFromBytes scenarioBuffer DecodeFeedback.fresh).layer.Name
        ≠ scenarioBuffer.slice (5 + 4) 10 := by
  decide

/-- C9, amended: when `CHAP.DecodeFromBytes` returns `nil`, the declared length is at most
the length of the buffer and either the code is Challenge or Response, `Value` is
`buffer[5 : 5+valueSize]`, `Name` is `buffer[5+valueSize :]` (all bytes after the value up
to the end of the buffer) and `Message` is `nil`; or the code is Success or Failure,
`Message` is `buffer[4:]` (all bytes after the header up to the end of the buffer) and
`Value` and `Name` are `nil`. -/
theorem chap_decode_name_message_extent (chap : CHAP) (df : DecodeFeedback) (data : Slice)
    (hd : (chap.DecodeFromBytes data df).ret = .nil) :
    (chap.DecodeFromBytes data df).layer.Length.val ≤ data.len ∧
    ((((chap.DecodeFromBytes data df).layer.Code = CHAPChallenge ∨
        (chap.DecodeFromBytes data df).layer.Code = CHAPResponse) ∧
      data.slice 5 (5 + (chap.DecodeFromBytes data df).layer.ValueSize.val)
        = some (chap.DecodeFromBytes data df).layer.Value ∧
      data.sliceFrom (5 + (chap.DecodeFromBytes data df).layer.ValueSize.val)
        = some (chap.DecodeFromBytes data df).layer.Name ∧
      (chap.DecodeFromBytes data df).layer.Message = none) ∨
    (((chap.DecodeFromBytes data df).layer.Code = CHAPSuccess ∨
        (chap.DecodeFromBytes data df).layer.Code = CHAPFailure) ∧
      data.sliceFrom 4 = some (chap.DecodeFromBytes data df).layer.Message ∧
      (chap.DecodeFromBytes data df).layer.Value = none ∧
      (chap.DecodeFromBytes data df).layer.Name = none)) := by
  rcases chap_decode_nil_inv chap df data hd with
    ⟨c, i, h, l, v, rest, rfl, hc, hl, hv, hw⟩ | ⟨c, i, h, l, rest, rfl, hc, hl⟩
  · rw [chap_decode_challenge chap df c i h l v rest hc hl hv hw]
    refine ⟨by simp [Slice.len]; omega, Or.inl ⟨hc, ?_, ?_, rfl⟩⟩
    · have e : 5 ≤ 5 + v.val ∧ 5 + v.val ≤ rest.length + 1 + 1 + 1 + 1 + 1 := by omega
      have e2 : 5 + v.val = v.val + 1 + 1 + 1 + 1 + 1 := by omega
      simp [Slice.slice, Slice.len, e]
      rw [e2]
      simp
    · have e : 5 + v.val ≤ rest.length + 1 + 1 + 1 + 1 + 1 := by omega
      have e2 : 5 + v.val = v.val + 1 + 1 + 1 + 1 + 1 := by omega
      simp [Slice.sliceFrom, Slice.slice, Slice.len, e]
      rw [e2]
      simp
  · rw [chap_decode_success chap df c i h l rest hc hl]
    refine ⟨by simp [Slice.len]; omega, Or.inr ⟨hc, ?_, rfl, rfl⟩⟩
    simp [Slice.sliceFrom, Slice.slice, Slice.len]

/-- Witness of `chap_decode_name_message_extent`: the 11-byte scenario. -/
theorem chap_decode_name_message_extent_witness :
    (CHAP.zero.DecodeFromBytes scenarioBuffer DecodeFeedback.fresh).layer.Length.val
        ≤ scenarioBuffer.len ∧
    ((((CHAP.zero.DecodeFromBytes scenarioBuffer DecodeFeedback.fresh).layer.Code = CHAPChallenge ∨
        (CHAP.zero.DecodeFromBytes scenarioBuffer DecodeFeedback.fresh).layer.Code
          = CHAPResponse) ∧
      scenarioBuffer.slice 5
          (5 + (CHAP.zero.DecodeFromBytes scenarioBuffer DecodeFeedback.fresh).layer.ValueSize.val)
        = some (CHAP.zero.DecodeFromBytes scenarioBuffer DecodeFeedback.fresh).layer.Value ∧
      scenarioBuffer.sliceFrom
          (5 + (CHAP.zero.DecodeFromBytes scenarioBuffer DecodeFeedback.fresh).layer.ValueSize.val)
        = some (CHAP.zero.DecodeFromBytes scenarioBuffer DecodeFeedback.fresh).layer.Name ∧
      (CHAP.zero.DecodeFromBytes scenarioBuffer DecodeFeedback.fresh).layer.Message = none) ∨
    (((CHAP.zero.DecodeFromBytes scenarioBuffer DecodeFeedback.fresh).layer.Code = CHAPSuccess ∨
        (CHAP.zero.DecodeFromBytes scenarioBuffer DecodeFeedback.fresh).layer.Code
          = CHAPFailure) ∧
      scenarioBuffer.sliceFrom 4
        = some (CHAP.zero.DecodeFromBytes scenarioBuffer DecodeFeedback.fresh).layer.Message ∧
      (CHAP.zero.DecodeFromBytes scenarioBuffer DecodeFeedback.fresh).layer.Value = none ∧
      (CHAP.zero.DecodeFromBytes scenarioBuffer DecodeFeedback.fresh).layer.Name = none)) :=
  chap_decode_name_message_extent CHAP.zero DecodeFeedback.fresh scenarioBuffer (by decide)

/-! ## IPCP: the paths of `DecodeFromBytes` -/

theorem To4_IPv4 (a b c d : Byte) : net.To4 (net.IPv4 a b c d) = some [a, b, c, d] := by
  simp [net.To4, net.IPv4, v4InV6Prefix, Slice.len, Slice.index, Slice.bytes]

theorem ipcp_decode_short (ipcp : IPCP) (df : DecodeFeedback) (data : Slice)
    (h : data.len < 3) :
    ipcp.DecodeFromBytes data df =
      ⟨ipcp, df.SetTruncated, .error (.ipcpTooShort data.len)⟩ := by
  simp [IPCP.DecodeFromBytes, h]

theorem ipcp_decode_declared (ipcp : IPCP) (df : DecodeFeedback) (c h l : Byte)
    (rest : List Byte) (hl : 3 + rest.length < (be16 h l).val) :
    ipcp.DecodeFromBytes (some (c :: h :: l :: rest)) df =
      ⟨{ ipcp with Code := c, Length := be16 h l }, df.SetTruncated,
        .error (.ipcpTooShortExpected (c :: h :: l :: rest).length (be16 h l).val)⟩ := by
  have e0 : ¬ (rest.length + 1 + 1 + 1 < 3) := by omega
  have e1 : rest.length + 1 + 1 + 1 < (be16 h l).val := by omega
  simp [IPCP.DecodeFromBytes, Slice.len, Slice.index, Slice.bytes, Slice.slice, Uint16_pair,
    e0, e1]

theorem ipcp_decode_offer (ipcp : IPCP) (df : DecodeFeedback) (c h l a0 a1 a2 a3 m0 m1 m2 m3 : Byte)
    (rest : List Byte) (hc : c = IPCPOffer) (hl : (be16 h l).val ≤ 11 + rest.length) :
    ipcp.DecodeFromBytes (some (c :: h :: l :: a0 :: a1 :: a2 :: a3 :: m0 :: m1 :: m2 :: m3 :: rest))
        df =
      ⟨{ Contents := some ((c :: h :: l :: a0 :: a1 :: a2 :: a3 :: m0 :: m1 :: m2 :: m3 :: rest).take
            (be16 h l).val),
         Payload := some ((c :: h :: l :: a0 :: a1 :: a2 :: a3 :: m0 :: m1 :: m2 :: m3 :: rest).drop
            (be16 h l).val),
         Code := c, Length := be16 h l, Address := some [a0, a1, a2, a3],
         SubnetMask := some [m0, m1, m2, m3], Message := none }, df, .nil⟩ := by
  have e0 : ¬ (rest.length + 1 + 1 + 1 + 1 + 1 + 1 + 1 + 1 + 1 + 1 + 1 < 3) := by omega
  have e1 : ¬ (rest.length + 1 + 1 + 1 + 1 + 1 + 1 + 1 + 1 + 1 + 1 + 1 < (be16 h l).val) := by
    omega
  have e4 : (be16 h l).val ≤ rest.length + 1 + 1 + 1 + 1 + 1 + 1 + 1 + 1 + 1 + 1 + 1 := by omega
  simp [IPCP.DecodeFromBytes, Slice.len, Slice.index, Slice.bytes, Slice.slice, Slice.sliceFrom,
    Slice.sliceTo, Slice.at, Uint16_pair, e0, e1, e4, hc, bind, Except.bind, pure, Except.pure,
    To4_IPv4, net.IPv4Mask]

theorem ipcp_decode_offer_short (ipcp : IPCP) (df : DecodeFeedback) (c h l : Byte)
    (rest : List Byte) (hc : c = IPCPOffer) (hl : (be16 h l).val ≤ 3 + rest.length)
    (hr : rest.length < 8) :
    ipcp.DecodeFromBytes (some (c :: h :: l :: rest)) df =
      ⟨{ ipcp with Code := c, Length := be16 h l,
                   Address := if rest.length < 4 then ipcp.Address else some (rest.take 4) }, df,
        .panic (.indexOutOfRange (3 + rest.length) (3 + rest.length))⟩ := by
  have e1 : ∀ n, (be16 h l).val ≤ 3 + n → ¬ (n + 1 + 1 + 1 < (be16 h l).val) := by
    intro n hn; omega
  rcases rest with _ | ⟨a0, _ | ⟨a1, _ | ⟨a2, _ | ⟨a3, _ | ⟨m0, _ | ⟨m1, _ | ⟨m2, _ | ⟨m3, rest⟩⟩⟩⟩⟩⟩⟩⟩
  all_goals simp only [List.length_cons, List.length_nil] at hr hl
  all_goals first
    | omega
    | (have e := e1 _ hl
       simp [IPCP.DecodeFromBytes, Slice.len, Slice.index, Slice.bytes, Slice.slice, Slice.at,
         Uint16_pair, hc, bind, Except.bind, pure, Except.pure, To4_IPv4]
       try omega)

theorem ipcp_decode_success (ipcp : IPCP) (df : DecodeFeedback) (c h l : Byte)
    (rest : List Byte) (hc : c = IPCPSuccess ∨ c = IPCPFailure)
    (hl : (be16 h l).val ≤ 3 + rest.length) :
    ipcp.DecodeFromBytes (some (c :: h :: l :: rest)) df =
      ⟨{ Contents := some ((c :: h :: l :: rest).take (be16 h l).val),
         Payload := some ((c :: h :: l :: rest).drop (be16 h l).val),
         Code := c, Length := be16 h l, Address := none, SubnetMask := none,
         Message := some rest }, df, .nil⟩ := by
  have hc' : ¬ (c = IPCPOffer) := by
    rcases hc with rfl | rfl <;> decide
  have e0 : ¬ (rest.length + 1 + 1 + 1 < 3) := by omega
  have e1 : ¬ (rest.length + 1 + 1 + 1 < (be16 h l).val) := by omega
  have e4 : (be16 h l).val ≤ rest.length + 1 + 1 + 1 := by omega
  simp [IPCP.DecodeFromBytes, Slice.len, Slice.index, Slice.bytes, Slice.slice, Slice.sliceFrom,
    Slice.sliceTo, Uint16_pair, e0, e1, e4, hc, hc']

theorem ipcp_decode_invalid (ipcp : IPCP) (df : DecodeFeedback) (c h l : Byte)
    (rest : List Byte) (hc : ¬ (c = IPCPOffer)) (hc' : ¬ (c = IPCPSuccess ∨ c = IPCPFailure))
    (hl : (be16 h l).val ≤ 3 + rest.length) :
    ipcp.DecodeFromBytes (some (c :: h :: l :: rest)) df =
      ⟨{ ipcp with Code := c, Length := be16 h l }, df, .error (.ipcpInvalidCode c.val)⟩ := by
  have e0 : ¬ (rest.length + 1 + 1 + 1 < 3) := by omega
  have e1 : ¬ (rest.length + 1 + 1 + 1 < (be16 h l).val) := by omega
  simp [IPCP.DecodeFromBytes, Slice.len, Slice.index, Slice.bytes, Slice.slice, Uint16_pair,
    e0, e1, hc, hc']

theorem Slice.cons3_of_len (data : Slice) (h : 3 ≤ data.len) :
    ∃ c hi lo rest, data = some (c :: hi :: lo :: rest) := by
  rcases data with _ | l
  · simp [Slice.len] at h
  · rcases l with _ | ⟨c, _ | ⟨hi, _ | ⟨lo, rest⟩⟩⟩
    all_goals simp [Slice.len] at h
    exact ⟨c, hi, lo, rest, rfl⟩

theorem exists_cons8 (l : List Byte) (h : 8 ≤ l.length) :
    ∃ a0 a1 a2 a3 m0 m1 m2 m3 rest, l = a0 :: a1 :: a2 :: a3 :: m0 :: m1 :: m2 :: m3 :: rest := by
  rcases l with _ | ⟨a0, _ | ⟨a1, _ | ⟨a2, _ | ⟨a3, _ | ⟨m0, _ | ⟨m1, _ | ⟨m2, _ | ⟨m3, rest⟩⟩⟩⟩⟩⟩⟩⟩
  all_goals simp at h
  all_goals first | omega | exact ⟨a0, a1, a2, a3, m0, m1, m2, m3, rest, rfl⟩

/-- A successful `IPCP.DecodeFromBytes` went through one of its two successful paths. -/
theorem ipcp_decode_nil_inv (ipcp : IPCP) (df : DecodeFeedback) (data : Slice)
    (hd : (ipcp.DecodeFromBytes data df).ret = .nil) :
    (∃ c h l a0 a1 a2 a3 m0 m1 m2 m3 rest,
        data = some (c :: h :: l :: a0 :: a1 :: a2 :: a3 :: m0 :: m1 :: m2 :: m3 :: rest) ∧
        c = IPCPOffer ∧ (be16 h l).val ≤ 11 + rest.length) ∨
    (∃ c h l rest, data = some (c :: h :: l :: rest) ∧
        (c = IPCPSuccess ∨ c = IPCPFailure) ∧ (be16 h l).val ≤ 3 + rest.length) := by
  by_cases h3 : data.len < 3
  · rw [ipcp_decode_short ipcp df data h3] at hd
    simp at hd
  obtain ⟨c, h, l, rest, rfl⟩ := Slice.cons3_of_len data (by omega)
  by_cases hl : 3 + rest.length < (be16 h l).val
  · rw [ipcp_decode_declared ipcp df c h l rest hl] at hd
    simp at hd
  by_cases hc : c = IPCPOffer
  · by_cases hr : rest.length < 8
    · rw [ipcp_decode_offer_short ipcp df c h l rest hc (by omega) hr] at hd
      simp at hd
    · obtain ⟨a0, a1, a2, a3, m0, m1, m2, m3, rest, rfl⟩ := exists_cons8 rest (by omega)
      simp only [List.length_cons] at hl
      exact Or.inl ⟨c, h, l, a0, a1, a2, a3, m0, m1, m2, m3, rest, rfl, hc, by omega⟩
  by_cases hc' : c = IPCPSuccess ∨ c = IPCPFailure
  · exact Or.inr ⟨c, h, l, rest, rfl, hc', by omega⟩
  · rw [ipcp_decode_invalid ipcp df c h l rest hc hc' (by omega)] at hd
    simp at hd

/-! ## IPCP: serialization lemmas -/

theorem Slice.eq_of_len4 (s : Slice) (h : s.len = 4) : ∃ a b c d, s = some [a, b, c, d] := by
  rcases s with _ | l
  · simp [Slice.len] at h
  · rcases l with _ | ⟨a, _ | ⟨b, _ | ⟨c, _ | ⟨d, _ | ⟨e, rest⟩⟩⟩⟩⟩
    all_goals simp [Slice.len] at h
    exact ⟨a, b, c, d, rfl⟩

theorem exists_cons11 (l : List Byte) (h : l.length = 3 + 8) :
    ∃ b0 b1 b2 b3 b4 b5 b6 b7 b8 b9 b10,
      l = [b0, b1, b2, b3, b4, b5, b6, b7, b8, b9, b10] := by
  rcases l with _ | ⟨b0, _ | ⟨b1, _ | ⟨b2, l⟩⟩⟩
  all_goals simp at h
  obtain ⟨a0, a1, a2, a3, m0, m1, m2, m3, rest, rfl⟩ := exists_cons8 l (by omega)
  rcases rest with _ | ⟨x, rest⟩
  · exact ⟨b0, b1, b2, a0, a1, a2, a3, m0, m1, m2, m3, rfl⟩
  · simp at h

theorem exists_cons3 (l : List Byte) (k : Nat) (h : l.length = 3 + k) :
    ∃ b0 b1 b2 tail, l = b0 :: b1 :: b2 :: tail ∧ tail.length = k := by
  rcases l with _ | ⟨b0, _ | ⟨b1, _ | ⟨b2, tail⟩⟩⟩
  all_goals simp at h
  all_goals first | omega | exact ⟨b0, b1, b2, tail, rfl, by omega⟩

theorem ipcp_write_offer (ipcp : IPCP) (b0 b1 b2 b3 b4 b5 b6 b7 b8 b9 b10 : Byte)
    (a0 a1 a2 a3 m0 m1 m2 m3 : Byte) (hc : ipcp.Code = IPCPOffer)
    (ha : ipcp.Address = some [a0, a1, a2, a3]) (hk : ipcp.SubnetMask = some [m0, m1, m2, m3]) :
    ipcp.write [b0, b1, b2, b3, b4, b5, b6, b7, b8, b9, b10] =
      .ok [ipcp.Code, hiByte ipcp.Length, loByte ipcp.Length, a0, a1, a2, a3, m0, m1, m2, m3] := by
  simp [IPCP.write, store, BigEndian.PutUint16, copyInto, hc, ha, hk, bind, Except.bind,
    net.To4, Slice.len, Slice.bytes]

theorem ipcp_write_success (ipcp : IPCP) (b0 b1 b2 : Byte) (tail : List Byte)
    (hc : ipcp.Code = IPCPSuccess ∨ ipcp.Code = IPCPFailure)
    (ht : tail.length = ipcp.Message.len) :
    ipcp.write (b0 :: b1 :: b2 :: tail) =
      .ok (ipcp.Code :: hiByte ipcp.Length :: loByte ipcp.Length :: ipcp.Message.bytes) := by
  have hc' : ¬ (ipcp.Code = IPCPOffer) := by
    rcases hc with h | h <;> rw [h] <;> decide
  have hs : tail.length = ipcp.Message.bytes.length := by
    simp [ht, Slice.len_eq]
  have key := copyInto_full [ipcp.Code, hiByte ipcp.Length, loByte ipcp.Length]
    tail ipcp.Message (tail.length + 3) (by simp) hs
  simp only [List.length_cons, List.length_nil, List.cons_append, List.nil_append] at key
  simp [IPCP.write, store, BigEndian.PutUint16, hc, hc', bind, Except.bind, key]

theorem ipcp_serialize_offer (ipcp : IPCP) (b : SerializeBuffer) (opts : SerializeOptions)
    (a0 a1 a2 a3 m0 m1 m2 m3 : Byte) (hc : ipcp.Code = IPCPOffer) (hm : ipcp.Message = none)
    (ha : ipcp.Address = some [a0, a1, a2, a3]) (hk : ipcp.SubnetMask = some [m0, m1, m2, m3])
    (hb : b.err = none) (len : Word16)
    (hlen : len = if opts.FixLengths then uint16 (3 + 8) else ipcp.Length) :
    ipcp.SerializeTo b opts =
      ⟨{ ipcp with Length := len },
        some [ipcp.Code, hiByte len, loByte len, a0, a1, a2, a3, m0, m1, m2, m3], .nil⟩ := by
  obtain ⟨bytes, hp, hn⟩ := prepend_ok b (3 + 8) hb
  obtain ⟨b0, b1, b2, b3, b4, b5, b6, b7, b8, b9, b10, rfl⟩ := exists_cons11 bytes hn
  have hw := ipcp_write_offer { ipcp with Length := len } b0 b1 b2 b3 b4 b5 b6 b7 b8 b9 b10
    a0 a1 a2 a3 m0 m1 m2 m3 hc ha hk
  obtain ⟨base, code, length, address, mask, message⟩ := ipcp
  simp only at hc hm ha hk hp hw hlen
  subst hm hlen ha hk hc
  cases hf : opts.FixLengths <;> simp [hf] at hw <;>
    simp [IPCP.SerializeTo, hp, hf, hw]

theorem ipcp_serialize_success (ipcp : IPCP) (b : SerializeBuffer) (opts : SerializeOptions)
    (hc : ipcp.Code = IPCPSuccess ∨ ipcp.Code = IPCPFailure) (ha : ipcp.Address = none)
    (hk : ipcp.SubnetMask = none) (hb : b.err = none) (len : Word16)
    (hlen : len = if opts.FixLengths then uint16 (3 + ipcp.Message.len) else ipcp.Length) :
    ipcp.SerializeTo b opts =
      ⟨{ ipcp with Length := len },
        some (ipcp.Code :: hiByte len :: loByte len :: ipcp.Message.bytes), .nil⟩ := by
  have hc' : ¬ (ipcp.Code = IPCPOffer) := by
    rcases hc with h | h <;> rw [h] <;> decide
  obtain ⟨bytes, hp, hl⟩ := prepend_ok b (3 + ipcp.Message.len) hb
  obtain ⟨b0, b1, b2, tail, rfl, ht⟩ := exists_cons3 bytes _ hl
  have hw := ipcp_write_success { ipcp with Length := len } b0 b1 b2 tail hc ht
  obtain ⟨base, code, length, address, mask, message⟩ := ipcp
  simp only at hc hc' ha hk hp hw hlen
  subst ha hk hlen
  cases hf : opts.FixLengths <;> simp only [hf, Bool.false_eq_true, ↓reduceIte] at hw <;>
    simp [IPCP.SerializeTo, hc, hc', hp, hf, hw]

/-! ## IPCP: the claims -/

/-- C2: a valid record (an Offer with a 4-byte address, a 4-byte mask and no message; or
a Success or Failure without address and mask whose encoded size fits 16 bits) that
`IPCP.SerializeTo` writes with `FixLengths` into a buffer that grants the room is returned by
`IPCP.DecodeFromBytes` of the written bytes: both calls return `nil`, code, address, mask
and message have the same bytes, and `Length` is the number of bytes written. -/
theorem ipcp_round_trip (r : IPCP) (b : SerializeBuffer) (opts : SerializeOptions) (x : IPCP)
    (df : DecodeFeedback) (hb : b.err = none) (hf : opts.FixLengths = true)
    (hv : (r.Code = IPCPOffer ∧ r.Address.len = 4 ∧ r.SubnetMask.len = 4 ∧ r.Message = none) ∨
      ((r.Code = IPCPSuccess ∨ r.Code = IPCPFailure) ∧ r.Address = none ∧
        r.SubnetMask = none ∧ 3 + r.Message.len ≤ 65535)) :
    ∃ out, (r.SerializeTo b opts).ret = .nil ∧ (r.SerializeTo b opts).out = some out ∧
      (x.DecodeFromBytes (some out) df).ret = .nil ∧
      (x.DecodeFromBytes (some out) df).layer.Code = r.Code ∧
      (x.DecodeFromBytes (some out) df).layer.Address.bytes = r.Address.bytes ∧
      (x.DecodeFromBytes (some out) df).layer.SubnetMask.bytes = r.SubnetMask.bytes ∧
      (x.DecodeFromBytes (some out) df).layer.Message.bytes = r.Message.bytes ∧
      (x.DecodeFromBytes (some out) df).layer.Length.val = out.length := by
  rcases hv with ⟨hc, ha, hk, hm⟩ | ⟨hc, ha, hk, hs⟩
  · obtain ⟨a0, a1, a2, a3, ha⟩ := Slice.eq_of_len4 r.Address ha
    obtain ⟨m0, m1, m2, m3, hk⟩ := Slice.eq_of_len4 r.SubnetMask hk
    have hu : (uint16 (3 + 8)).val = 11 := by decide
    rw [ipcp_serialize_offer r b opts a0 a1 a2 a3 m0 m1 m2 m3 hc hm ha hk hb (uint16 (3 + 8))
      (by simp [hf])]
    refine ⟨_, rfl, rfl, ?_⟩
    have hd := ipcp_decode_offer x df r.Code (hiByte (uint16 (3 + 8))) (loByte (uint16 (3 + 8)))
      a0 a1 a2 a3 m0 m1 m2 m3 [] hc (by rw [be16_hiByte_loByte, hu]; simp)
    rw [hd]
    refine ⟨rfl, rfl, ?_, ?_, ?_, ?_⟩
    · simp [ha]
    · simp [hk]
    · simp [hm]
    · simp only [be16_hiByte_loByte, hu, List.length_cons, List.length_nil]
  · have hu : (uint16 (3 + r.Message.len)).val = 3 + r.Message.len := by
      simp only [uint16]; omega
    rw [ipcp_serialize_success r b opts hc ha hk hb (uint16 (3 + r.Message.len)) (by simp [hf])]
    refine ⟨_, rfl, rfl, ?_⟩
    have hd := ipcp_decode_success x df r.Code (hiByte (uint16 (3 + r.Message.len)))
      (loByte (uint16 (3 + r.Message.len))) r.Message.bytes hc
      (by rw [be16_hiByte_loByte, hu, Slice.len_eq])
    rw [hd]
    refine ⟨rfl, rfl, ?_, ?_, ?_, ?_⟩
    · simp [ha]
    · simp [hk]
    · simp
    · rw [be16_hiByte_loByte, hu, Slice.len_eq]
      simp only [List.length_cons]
      omega

/-- The Offer record of the specification's scenario: 192.168.1.1 with mask 255.255.255.0. -/
def offerRecord : IPCP :=
  { IPCP.zero with Code := IPCPOffer, Address := some [192, 168, 1, 1],
                   SubnetMask := some [255, 255, 255, 0] }

/-- Witness of `ipcp_round_trip`: the Offer 192.168.1.1 / 255.255.255.0. -/
theorem ipcp_round_trip_witness :
    ∃ out, (offerRecord.SerializeTo SerializeBuffer.fresh ⟨true, false⟩).ret = .nil ∧
      (offerRecord.SerializeTo SerializeBuffer.fresh ⟨true, false⟩).out = some out ∧
      (IPCP.zero.DecodeFromBytes (some out) DecodeFeedback.fresh).ret = .nil ∧
      (IPCP.zero.DecodeFromBytes (some out) DecodeFeedback.fresh).layer.Code = offerRecord.Code ∧
      (IPCP.zero.DecodeFromBytes (some out) DecodeFeedback.fresh).layer.Address.bytes
        = offerRecord.Address.bytes ∧
      (IPCP.zero.DecodeFromBytes (some out) DecodeFeedback.fresh).layer.SubnetMask.bytes
        = offerRecord.SubnetMask.bytes ∧
      (IPCP.zero.DecodeFromBytes (some out) DecodeFeedback.fresh).layer.Message.bytes
        = offerRecord.Message.bytes ∧
      (IPCP.zero.DecodeFromBytes (some out) DecodeFeedback.fresh).layer.Length.val = out.length :=
  ipcp_round_trip offerRecord SerializeBuffer.fresh ⟨true, false⟩ IPCP.zero DecodeFeedback.fresh
    rfl rfl (Or.inl ⟨rfl, rfl, rfl, rfl⟩)

/-- C6, at buffers that meet its conditions: an Offer of 3 bytes declaring 3, and an Offer
of 10 bytes declaring 10. `DecodeFromBytes` does not return a truncation error: it reads
`data[3]` to `data[10]` without a length check of its own and panics at the first index
that is out of range, and `SetTruncated` is not called. -/
theorem ipcp_decode_short_offer :
    (IPCP.zero.DecodeFromBytes (some [1, 0, 3]) DecodeFeedback.fresh).ret
        = .panic (.indexOutOfRange 3 3) ∧
      (IPCP.zero.DecodeFromBytes (some [1, 0, 3]) DecodeFeedback.fresh).df.truncatedCalls = 0 ∧
      (IPCP.zero.DecodeFromBytes (some [1, 0, 10, 192, 168, 1, 1, 255, 255, 255])
        DecodeFeedback.fresh).ret = .panic (.indexOutOfRange 10 10) ∧
      (IPCP.zero.DecodeFromBytes (some [1, 0, 10, 192, 168, 1, 1, 255, 255, 255])
        DecodeFeedback.fresh).df.truncatedCalls = 0 := by
  decide

/-- C8 as stated fails on a Success without message bytes: `CHAP.DecodeFromBytes` of
`03 00 00 04` and `IPCP.DecodeFromBytes` of `02 00 03` return `nil`, and no field of either
group holds a byte (the message is the empty slice `data[4:]`, resp. `data[3:]`). -/
theorem decode_success_without_message :
    (CHAP.zero.DecodeFromBytes (some [3, 0, 0, 4]) DecodeFeedback.fresh).ret = .nil ∧
      (CHAP.zero.DecodeFromBytes (some [3, 0, 0, 4]) DecodeFeedback.fresh).layer.Value.len = 0 ∧
      (CHAP.zero.DecodeFromBytes (some [3, 0, 0, 4]) DecodeFeedback.fresh).layer.Name.len = 0 ∧
      (CHAP.zero.DecodeFromBytes (some [3, 0, 0, 4]) DecodeFeedback.fresh).layer.Message.len = 0 ∧
      (IPCP.zero.DecodeFromBytes (some [2, 0, 3]) DecodeFeedback.fresh).ret = .nil ∧
      (IPCP.zero.DecodeFromBytes (some [2, 0, 3]) DecodeFeedback.fresh).layer.Address.len = 0 ∧
      (IPCP.zero.DecodeFromBytes (some [2, 0, 3]) DecodeFeedback.fresh).layer.SubnetMask.len = 0 ∧
      (IPCP.zero.DecodeFromBytes (some [2, 0, 3]) DecodeFeedback.fresh).layer.Message.len = 0 := by
  decide

/-- C8, amended: when `CHAP.DecodeFromBytes` returns `nil`, exactly one of the two field
groups is present, as the code says: for Challenge and Response `Value` and `Name` are
non-nil slices and `Message` is `nil`, for Success and Failure `Message` is a non-nil slice
and `Value` and `Name` are `nil`. When `IPCP.DecodeFromBytes` returns `nil`: for Offer
`Address` and `SubnetMask` have 4 bytes each and `Message` is `nil`, for Success and
Failure `Message` is a non-nil slice and `Address` and `SubnetMask` are `nil`. A slice
that is present may have length 0. -/
theorem decode_one_group_present :
    (∀ (chap : CHAP) (df : DecodeFeedback) (data : Slice),
      (chap.DecodeFromBytes data df).ret = .nil →
      (((chap.DecodeFromBytes data df).layer.Code = CHAPChallenge ∨
          (chap.DecodeFromBytes data df).layer.Code = CHAPResponse) ∧
        (chap.DecodeFromBytes data df).layer.Value ≠ none ∧
        (chap.DecodeFromBytes data df).layer.Name ≠ none ∧
        (chap.DecodeFromBytes data df).layer.Message = none) ∨
      (((chap.DecodeFromBytes data df).layer.Code = CHAPSuccess ∨
          (chap.DecodeFromBytes data df).layer.Code = CHAPFailure) ∧
        (chap.DecodeFromBytes data df).layer.Value = none ∧
        (chap.DecodeFromBytes data df).layer.Name = none ∧
        (chap.DecodeFromBytes data df).layer.Message ≠ none)) ∧
    (∀ (ipcp : IPCP) (df : DecodeFeedback) (data : Slice),
      (ipcp.DecodeFromBytes data df).ret = .nil →
      ((ipcp.DecodeFromBytes data df).layer.Code = IPCPOffer ∧
        (ipcp.DecodeFromBytes data df).layer.Address.len = 4 ∧
        (ipcp.DecodeFromBytes data df).layer.SubnetMask.len = 4 ∧
        (ipcp.DecodeFromBytes data df).layer.Message = none) ∨
      (((ipcp.DecodeFromBytes data df).layer.Code = IPCPSuccess ∨
          (ipcp.DecodeFromBytes data df).layer.Code = IPCPFailure) ∧
        (ipcp.DecodeFromBytes data df).layer.Address = none ∧
        (ipcp.DecodeFromBytes data df).layer.SubnetMask = none ∧
        (ipcp.DecodeFromBytes data df).layer.Message ≠ none)) := by
  constructor
  · intro chap df data hd
    rcases chap_decode_nil_inv chap df data hd with
      ⟨c, i, h, l, v, rest, rfl, hc, hl, hv, hw⟩ | ⟨c, i, h, l, rest, rfl, hc, hl⟩
    · rw [chap_decode_challenge chap df c i h l v rest hc hl hv hw]
      exact Or.inl ⟨hc, by simp, by simp, rfl⟩
    · rw [chap_decode_success chap df c i h l rest hc hl]
      exact Or.inr ⟨hc, rfl, rfl, by simp⟩
  · intro ipcp df data hd
    rcases ipcp_decode_nil_inv ipcp df data hd with
      ⟨c, h, l, a0, a1, a2, a3, m0, m1, m2, m3, rest, rfl, hc, hl⟩ | ⟨c, h, l, rest, rfl, hc, hl⟩
    · rw [ipcp_decode_offer ipcp df c h l a0 a1 a2 a3 m0 m1 m2 m3 rest hc hl]
      exact Or.inl ⟨hc, rfl, rfl, rfl⟩
    · rw [ipcp_decode_success ipcp df c h l rest hc hl]
      exact Or.inr ⟨hc, rfl, rfl, by simp⟩

/-- The Offer of the specification's scenario: 192.168.1.1 with mask 255.255.255.0. -/
def offerBuffer : Slice :=
  some [0x01, 0x00, 0x0B, 0xC0, 0xA8, 0x01, 0x01, 0xFF, 0xFF, 0xFF, 0x00]

/-- Witness of `decode_one_group_present`: the Challenge scenario has `Value` and `Name`
and no `Message`; the Offer scenario has `Address` and `SubnetMask` and no `Message`. -/
theorem decode_one_group_present_witness :
    ((((CHAP.zero.DecodeFromBytes scenarioBuffer DecodeFeedback.fresh).layer.Code = CHAPChallenge ∨
          (CHAP.zero.DecodeFromBytes scenarioBuffer DecodeFeedback.fresh).layer.Code
            = CHAPResponse) ∧
        (CHAP.zero.DecodeFromBytes scenarioBuffer DecodeFeedback.fresh).layer.Value ≠ none ∧
        (CHAP.zero.DecodeFromBytes scenarioBuffer DecodeFeedback.fresh).layer.Name ≠ none ∧
        (CHAP.zero.DecodeFromBytes scenarioBuffer DecodeFeedback.fresh).layer.Message = none) ∨
      (((CHAP.zero.DecodeFromBytes scenarioBuffer DecodeFeedback.fresh).layer.Code = CHAPSuccess ∨
          (CHAP.zero.DecodeFromBytes scenarioBuffer DecodeFeedback.fresh).layer.Code
            = CHAPFailure) ∧
        (CHAP.zero.DecodeFromBytes scenarioBuffer DecodeFeedback.fresh).layer.Value = none ∧
        (CHAP.zero.DecodeFromBytes scenarioBuffer DecodeFeedback.fresh).layer.Name = none ∧
        (CHAP.zero.DecodeFromBytes scenarioBuffer DecodeFeedback.fresh).layer.Message ≠ none)) ∧
    (((IPCP.zero.DecodeFromBytes offerBuffer DecodeFeedback.fresh).layer.Code = IPCPOffer ∧
        (IPCP.zero.DecodeFromBytes offerBuffer DecodeFeedback.fresh).layer.Address.len = 4 ∧
        (IPCP.zero.DecodeFromBytes offerBuffer DecodeFeedback.fresh).layer.SubnetMask.len = 4 ∧
        (IPCP.zero.DecodeFromBytes offerBuffer DecodeFeedback.fresh).layer.Message = none) ∨
      (((IPCP.zero.DecodeFromBytes offerBuffer DecodeFeedback.fresh).layer.Code = IPCPSuccess ∨
          (IPCP.zero.DecodeFromBytes offerBuffer DecodeFeedback.fresh).layer.Code = IPCPFailure) ∧
        (IPCP.zero.DecodeFromBytes offerBuffer DecodeFeedback.fresh).layer.Address = none ∧
        (IPCP.zero.DecodeFromBytes offerBuffer DecodeFeedback.fresh).layer.SubnetMask = none ∧
        (IPCP.zero.DecodeFromBytes offerBuffer DecodeFeedback.fresh).layer.Message ≠ none)) :=
  ⟨decode_one_group_present.1 CHAP.zero DecodeFeedback.fresh scenarioBuffer (by decide),
   decode_one_group_present.2 IPCP.zero DecodeFeedback.fresh offerBuffer (by decide)⟩

/-! ## Contents and payload; independence of the receiver -/

theorem Slice.cons3_of_index (data : Slice) (lo : Byte) (h2 : data.index 2 = some lo) :
    ∃ c hi rest, data = some (c :: hi :: lo :: rest) := by
  rcases data with _ | l
  · simp [Slice.index] at h2
  · rcases l with _ | ⟨c, _ | ⟨hi, _ | ⟨lo', rest⟩⟩⟩
    all_goals simp [Slice.index] at h2
    exact ⟨c, hi, rest, by rw [h2]⟩

theorem sliceTo_take (l : List Byte) (n : Nat) (h : n ≤ l.length) :
    Slice.sliceTo (some l) n = some (some (l.take n)) := by
  simp [Slice.sliceTo, Slice.slice, Slice.len, h]

theorem sliceFrom_drop (l : List Byte) (n : Nat) (h : n ≤ l.length) :
    Slice.sliceFrom (some l) n = some (some (l.drop n)) := by
  simp [Slice.sliceFrom, Slice.slice, Slice.len, h]

/-- C11: when `CHAP.DecodeFromBytes` (resp. `IPCP.DecodeFromBytes`) returns `nil`,
`Contents` is `data[:Length]` and `Payload` is `data[Length:]`, so `Contents` has exactly
`Length` bytes and `Contents` followed by `Payload` is the buffer. -/
theorem decode_contents_payload :
    (∀ (chap : CHAP) (df : DecodeFeedback) (data : Slice),
      (chap.DecodeFromBytes data df).ret = .nil →
      data.sliceTo (chap.DecodeFromBytes data df).layer.Length.val
          = some (chap.DecodeFromBytes data df).layer.Contents ∧
        data.sliceFrom (chap.DecodeFromBytes data df).layer.Length.val
          = some (chap.DecodeFromBytes data df).layer.Payload ∧
        (chap.DecodeFromBytes data df).layer.Contents.len
          = (chap.DecodeFromBytes data df).layer.Length.val ∧
        (chap.DecodeFromBytes data df).layer.Contents.bytes
          ++ (chap.DecodeFromBytes data df).layer.Payload.bytes = data.bytes) ∧
    (∀ (ipcp : IPCP) (df : DecodeFeedback) (data : Slice),
      (ipcp.DecodeFromBytes data df).ret = .nil →
      data.sliceTo (ipcp.DecodeFromBytes data df).layer.Length.val
          = some (ipcp.DecodeFromBytes data df).layer.Contents ∧
        data.sliceFrom (ipcp.DecodeFromBytes data df).layer.Length.val
          = some (ipcp.DecodeFromBytes data df).layer.Payload ∧
        (ipcp.DecodeFromBytes data df).layer.Contents.len
          = (ipcp.DecodeFromBytes data df).layer.Length.val ∧
        (ipcp.DecodeFromBytes data df).layer.Contents.bytes
          ++ (ipcp.DecodeFromBytes data df).layer.Payload.bytes = data.bytes) := by
  constructor
  · intro chap df data hd
    rcases chap_decode_nil_inv chap df data hd with
      ⟨c, i, h, l, v, rest, rfl, hc, hl, hv, hw⟩ | ⟨c, i, h, l, rest, rfl, hc, hl⟩
    · rw [chap_decode_challenge chap df c i h l v rest hc hl hv hw]
      have hb : (be16 h l).val ≤ (c :: i :: h :: l :: v :: rest).length := by
        simp only [List.length_cons]; omega
      exact ⟨sliceTo_take _ _ hb, sliceFrom_drop _ _ hb,
        by simp only [Slice.len, List.length_take]; omega,
        by simp only [Slice.bytes_some, List.take_append_drop]⟩
    · rw [chap_decode_success chap df c i h l rest hc hl]
      have hb : (be16 h l).val ≤ (c :: i :: h :: l :: rest).length := by
        simp only [List.length_cons]; omega
      exact ⟨sliceTo_take _ _ hb, sliceFrom_drop _ _ hb,
        by simp only [Slice.len, List.length_take]; omega,
        by simp only [Slice.bytes_some, List.take_append_drop]⟩
  · intro ipcp df data hd
    rcases ipcp_decode_nil_inv ipcp df data hd with
      ⟨c, h, l, a0, a1, a2, a3, m0, m1, m2, m3, rest, rfl, hc, hl⟩ | ⟨c, h, l, rest, rfl, hc, hl⟩
    · rw [ipcp_decode_offer ipcp df c h l a0 a1 a2 a3 m0 m1 m2 m3 rest hc hl]
      have hb : (be16 h l).val
          ≤ (c :: h :: l :: a0 :: a1 :: a2 :: a3 :: m0 :: m1 :: m2 :: m3 :: rest).length := by
        simp only [List.length_cons]; omega
      exact ⟨sliceTo_take _ _ hb, sliceFrom_drop _ _ hb,
        by simp only [Slice.len, List.length_take]; omega,
        by simp only [Slice.bytes_some, List.take_append_drop]⟩
    · rw [ipcp_decode_success ipcp df c h l rest hc hl]
      have hb : (be16 h l).val ≤ (c :: h :: l :: rest).length := by
        simp only [List.length_cons]; omega
      exact ⟨sliceTo_take _ _ hb, sliceFrom_drop _ _ hb,
        by simp only [Slice.len, List.length_take]; omega,
        by simp only [Slice.bytes_some, List.take_append_drop]⟩

/-- Witness of `decode_contents_payload`: the Challenge scenario (11 bytes, declared
length 10) and the Offer scenario (11 bytes, declared length 11). -/
theorem decode_contents_payload_witness :
    (scenarioBuffer.sliceTo (CHAP.zero.DecodeFromBytes scenarioBuffer DecodeFeedback.fresh).layer.Length.val
          = some (CHAP.zero.DecodeFromBytes scenarioBuffer DecodeFeedback.fresh).layer.Contents ∧
        scenarioBuffer.sliceFrom
            (CHAP.zero.DecodeFromBytes scenarioBuffer DecodeFeedback.fresh).layer.Length.val
          = some (CHAP.zero.DecodeFromBytes scenarioBuffer DecodeFeedback.fresh).layer.Payload ∧
        (CHAP.zero.DecodeFromBytes scenarioBuffer DecodeFeedback.fresh).layer.Contents.len
          = (CHAP.zero.DecodeFromBytes scenarioBuffer DecodeFeedback.fresh).layer.Length.val ∧
        (CHAP.zero.DecodeFromBytes scenarioBuffer DecodeFeedback.fresh).layer.Contents.bytes
          ++ (CHAP.zero.DecodeFromBytes scenarioBuffer DecodeFeedback.fresh).layer.Payload.bytes
          = scenarioBuffer.bytes) ∧
    (offerBuffer.sliceTo (IPCP.zero.DecodeFromBytes offerBuffer DecodeFeedback.fresh).layer.Length.val
          = some (IPCP.zero.DecodeFromBytes offerBuffer DecodeFeedback.fresh).layer.Contents ∧
        offerBuffer.sliceFrom
            (IPCP.zero.DecodeFromBytes offerBuffer DecodeFeedback.fresh).layer.Length.val
          = some (IPCP.zero.DecodeFromBytes offerBuffer DecodeFeedback.fresh).layer.Payload ∧
        (IPCP.zero.DecodeFromBytes offerBuffer DecodeFeedback.fresh).layer.Contents.len
          = (IPCP.zero.DecodeFromBytes offerBuffer DecodeFeedback.fresh).layer.Length.val ∧
        (IPCP.zero.DecodeFromBytes offerBuffer DecodeFeedback.fresh).layer.Contents.bytes
          ++ (IPCP.zero.DecodeFromBytes offerBuffer DecodeFeedback.fresh).layer.Payload.bytes
          = offerBuffer.bytes) :=
  ⟨decode_contents_payload.1 CHAP.zero DecodeFeedback.fresh scenarioBuffer (by decide),
   decode_contents_payload.2 IPCP.zero DecodeFeedback.fresh offerBuffer (by decide)⟩

/-- C18: when `CHAP.DecodeFromBytes` (resp. `IPCP.DecodeFromBytes`) returns `nil` on a
buffer for one receiver, it returns `nil` on that buffer for every receiver and every
feedback, and the receiver after the call (every field, `Contents` and `Payload`) is the
same: it depends on the buffer only. -/
theorem decode_independent_of_receiver :
    (∀ (chap other : CHAP) (df df2 : DecodeFeedback) (data : Slice),
      (chap.DecodeFromBytes data df).ret = .nil →
      (other.DecodeFromBytes data df2).ret = .nil ∧
        (other.DecodeFromBytes data df2).layer = (chap.DecodeFromBytes data df).layer) ∧
    (∀ (ipcp other : IPCP) (df df2 : DecodeFeedback) (data : Slice),
      (ipcp.DecodeFromBytes data df).ret = .nil →
      (other.DecodeFromBytes data df2).ret = .nil ∧
        (other.DecodeFromBytes data df2).layer = (ipcp.DecodeFromBytes data df).layer) := by
  constructor
  · intro chap other df df2 data hd
    rcases chap_decode_nil_inv chap df data hd with
      ⟨c, i, h, l, v, rest, rfl, hc, hl, hv, hw⟩ | ⟨c, i, h, l, rest, rfl, hc, hl⟩
    · rw [chap_decode_challenge chap df c i h l v rest hc hl hv hw,
        chap_decode_challenge other df2 c i h l v rest hc hl hv hw]
      exact ⟨rfl, rfl⟩
    · rw [chap_decode_success chap df c i h l rest hc hl,
        chap_decode_success other df2 c i h l rest hc hl]
      exact ⟨rfl, rfl⟩
  · intro ipcp other df df2 data hd
    rcases ipcp_decode_nil_inv ipcp df data hd with
      ⟨c, h, l, a0, a1, a2, a3, m0, m1, m2, m3, rest, rfl, hc, hl⟩ | ⟨c, h, l, rest, rfl, hc, hl⟩
    · rw [ipcp_decode_offer ipcp df c h l a0 a1 a2 a3 m0 m1 m2 m3 rest hc hl,
        ipcp_decode_offer other df2 c h l a0 a1 a2 a3 m0 m1 m2 m3 rest hc hl]
      exact ⟨rfl, rfl⟩
    · rw [ipcp_decode_success ipcp df c h l rest hc hl,
        ipcp_decode_success other df2 c h l rest hc hl]
      exact ⟨rfl, rfl⟩

/-- The record left over from decoding a CHAP Success with message "ok". -/
def leftoverCHAP : CHAP :=
  (CHAP.zero.DecodeFromBytes (some [3, 9, 0, 4, 0x6f, 0x6b]) DecodeFeedback.fresh).layer

/-- The record left over from decoding an IPCP Failure with message "n". -/
def leftoverIPCP : IPCP :=
  (IPCP.zero.DecodeFromBytes (some [3, 0, 4, 0x6e]) DecodeFeedback.fresh).layer

/-- Witness of `decode_independent_of_receiver`: the Challenge scenario decoded into the
record left over from decoding a Success, and the Offer scenario decoded into the record
left over from decoding a Failure, against decoding into the zero record. -/
theorem decode_independent_of_receiver_witness :
    ((leftoverCHAP.DecodeFromBytes scenarioBuffer DecodeFeedback.fresh).ret = .nil ∧
      (leftoverCHAP.DecodeFromBytes scenarioBuffer DecodeFeedback.fresh).layer
        = (CHAP.zero.DecodeFromBytes scenarioBuffer DecodeFeedback.fresh).layer) ∧
    ((leftoverIPCP.DecodeFromBytes offerBuffer DecodeFeedback.fresh).ret = .nil ∧
      (leftoverIPCP.DecodeFromBytes offerBuffer DecodeFeedback.fresh).layer
        = (IPCP.zero.DecodeFromBytes offerBuffer DecodeFeedback.fresh).layer) :=
  ⟨decode_independent_of_receiver.1 CHAP.zero leftoverCHAP DecodeFeedback.fresh
      DecodeFeedback.fresh scenarioBuffer (by decide),
   decode_independent_of_receiver.2 IPCP.zero leftoverIPCP DecodeFeedback.fresh
      DecodeFeedback.fresh offerBuffer (by decide)⟩

/-! ## Invalid codes and field conflicts -/

/-- C12: a code outside 1..4 makes `CHAP.DecodeFromBytes` (buffer of at least 4 bytes,
declared length within the buffer) return an invalid-code error without a call of
`SetTruncated`, and makes `CHAP.SerializeTo` return an invalid-code error with nothing
written; a code outside 1..3 does the same for `IPCP.DecodeFromBytes` (buffer of at least 3
bytes, declared length within the buffer) and `IPCP.SerializeTo`. -/
theorem invalid_code_rejected :
    (∀ (chap : CHAP) (df : DecodeFeedback) (data : Slice) (c hi lo : Byte),
      data.index 0 = some c → c ≠ CHAPChallenge → c ≠ CHAPResponse → c ≠ CHAPSuccess →
      c ≠ CHAPFailure → data.index 2 = some hi → data.index 3 = some lo →
      (be16 hi lo).val ≤ data.len →
      (∃ e, (chap.DecodeFromBytes data df).ret = .error e ∧ e.kind = .InvalidCode) ∧
        (chap.DecodeFromBytes data df).df = df) ∧
    (∀ (chap : CHAP) (b : SerializeBuffer) (opts : SerializeOptions),
      chap.Code ≠ CHAPChallenge → chap.Code ≠ CHAPResponse → chap.Code ≠ CHAPSuccess →
      chap.Code ≠ CHAPFailure →
      (∃ e, (chap.SerializeTo b opts).ret = .error e ∧ e.kind = .InvalidCode) ∧
        (chap.SerializeTo b opts).out = none) ∧
    (∀ (ipcp : IPCP) (df : DecodeFeedback) (data : Slice) (c hi lo : Byte),
      data.index 0 = some c → c ≠ IPCPOffer → c ≠ IPCPSuccess → c ≠ IPCPFailure →
      data.index 1 = some hi → data.index 2 = some lo → (be16 hi lo).val ≤ data.len →
      (∃ e, (ipcp.DecodeFromBytes data df).ret = .error e ∧ e.kind = .InvalidCode) ∧
        (ipcp.DecodeFromBytes data df).df = df) ∧
    (∀ (ipcp : IPCP) (b : SerializeBuffer) (opts : SerializeOptions),
      ipcp.Code ≠ IPCPOffer → ipcp.Code ≠ IPCPSuccess → ipcp.Code ≠ IPCPFailure →
      (∃ e, (ipcp.SerializeTo b opts).ret = .error e ∧ e.kind = .InvalidCode) ∧
        (ipcp.SerializeTo b opts).out = none) := by
  refine ⟨?_, ?_, ?_, ?_⟩
  · intro chap df data c hi lo h0 c1 c2 c3 c4 h2 h3 hl
    obtain ⟨c', i, hi', rest, rfl⟩ := Slice.cons4_of_index data lo h3
    simp [Slice.index] at h0 h2
    subst h0 h2
    simp only [Slice.len, List.length_cons] at hl
    rw [chap_decode_invalid chap df c' i hi' lo rest (by simp [c1, c2]) (by simp [c3, c4])
      (by omega)]
    exact ⟨⟨_, rfl, rfl⟩, rfl⟩
  · intro chap b opts c1 c2 c3 c4
    simp [CHAP.SerializeTo, c1, c2, c3, c4, Error.kind]
  · intro ipcp df data c hi lo h0 c1 c2 c3 h1 h2 hl
    obtain ⟨c', hi', rest, rfl⟩ := Slice.cons3_of_index data lo h2
    simp [Slice.index] at h0 h1
    subst h0 h1
    simp only [Slice.len, List.length_cons] at hl
    rw [ipcp_decode_invalid ipcp df c' hi' lo rest c1 (by simp [c2, c3]) (by omega)]
    exact ⟨⟨_, rfl, rfl⟩, rfl⟩
  · intro ipcp b opts c1 c2 c3
    simp [IPCP.SerializeTo, c1, c2, c3, Error.kind]

/-- Witness of `invalid_code_rejected`: code 99, in a CHAP buffer of 4 bytes, a CHAP
record, an IPCP buffer of 3 bytes and an IPCP record. -/
theorem invalid_code_rejected_witness :
    ((∃ e, (CHAP.zero.DecodeFromBytes (some [99, 0, 0, 4]) DecodeFeedback.fresh).ret = .error e ∧
        e.kind = .InvalidCode) ∧
      (CHAP.zero.DecodeFromBytes (some [99, 0, 0, 4]) DecodeFeedback.fresh).df
        = DecodeFeedback.fresh) ∧
    ((∃ e, (CHAP.SerializeTo { CHAP.zero with Code := 99 } SerializeBuffer.fresh
          ⟨true, false⟩).ret = .error e ∧ e.kind = .InvalidCode) ∧
      (CHAP.SerializeTo { CHAP.zero with Code := 99 } SerializeBuffer.fresh ⟨true, false⟩).out
        = none) ∧
    ((∃ e, (IPCP.zero.DecodeFromBytes (some [99, 0, 3]) DecodeFeedback.fresh).ret = .error e ∧
        e.kind = .InvalidCode) ∧
      (IPCP.zero.DecodeFromBytes (some [99, 0, 3]) DecodeFeedback.fresh).df
        = DecodeFeedback.fresh) ∧
    ((∃ e, (IPCP.SerializeTo { IPCP.zero with Code := 99 } SerializeBuffer.fresh
          ⟨true, false⟩).ret = .error e ∧ e.kind = .InvalidCode) ∧
      (IPCP.SerializeTo { IPCP.zero with Code := 99 } SerializeBuffer.fresh ⟨true, false⟩).out
        = none) :=
  ⟨invalid_code_rejected.1 CHAP.zero DecodeFeedback.fresh (some [99, 0, 0, 4]) 99 0 4 rfl
      (by decide) (by decide) (by decide) (by decide) rfl rfl (by decide),
   invalid_code_rejected.2.1 { CHAP.zero with Code := 99 } SerializeBuffer.fresh ⟨true, false⟩
      (by decide) (by decide) (by decide) (by decide),
   invalid_code_rejected.2.2.1 IPCP.zero DecodeFeedback.fresh (some [99, 0, 3]) 99 0 3 rfl
      (by decide) (by decide) (by decide) rfl rfl (by decide),
   invalid_code_rejected.2.2.2 { IPCP.zero with Code := 99 } SerializeBuffer.fresh ⟨true, false⟩
      (by decide) (by decide) (by decide)⟩

/-- C13: a Success or Failure record with a value or a name of at least one byte, and a
Challenge or Response record with a message of at least one byte, make `CHAP.SerializeTo`
return a field-conflict error with nothing written, for every buffer and every option. -/
theorem chap_serialize_field_conflict (chap : CHAP) (b : SerializeBuffer)
    (opts : SerializeOptions)
    (h : ((chap.Code = CHAPSuccess ∨ chap.Code = CHAPFailure) ∧
        (0 < chap.Value.len ∨ 0 < chap.Name.len)) ∨
      ((chap.Code = CHAPChallenge ∨ chap.Code = CHAPResponse) ∧ 0 < chap.Message.len)) :
    (∃ e, (chap.SerializeTo b opts).ret = .error e ∧ e.kind = .FieldConflict) ∧
      (chap.SerializeTo b opts).out = none := by
  rcases h with ⟨hc, hv⟩ | ⟨hc, hm⟩
  · have hc' : ¬ (chap.Code = CHAPChallenge ∨ chap.Code = CHAPResponse) := by
      rcases hc with h | h <;> rw [h] <;> decide
    rcases hv with hv | hv
    · cases hval : chap.Value with
      | none => rw [hval] at hv; simp [Slice.len] at hv
      | some l => simp [CHAP.SerializeTo, hc, hc', hval, Error.kind]
    · cases hname : chap.Name with
      | none => rw [hname] at hv; simp [Slice.len] at hv
      | some l => simp [CHAP.SerializeTo, hc, hc', hname, Error.kind]
  · cases hmsg : chap.Message with
    | none => rw [hmsg] at hm; simp [Slice.len] at hm
    | some l => simp [CHAP.SerializeTo, hc, hmsg, Error.kind]

/-- Witness of `chap_serialize_field_conflict`: a Success with a one-byte value. -/
theorem chap_serialize_field_conflict_witness :
    (∃ e, (CHAP.SerializeTo { CHAP.zero with Code := CHAPSuccess, Value := some [7] }
        SerializeBuffer.fresh ⟨true, false⟩).ret = .error e ∧ e.kind = .FieldConflict) ∧
      (CHAP.SerializeTo { CHAP.zero with Code := CHAPSuccess, Value := some [7] }
        SerializeBuffer.fresh ⟨true, false⟩).out = none :=
  chap_serialize_field_conflict { CHAP.zero with Code := CHAPSuccess, Value := some [7] }
    SerializeBuffer.fresh ⟨true, false⟩ (Or.inl ⟨Or.inl rfl, Or.inl (by decide)⟩)

/-! ## IPCP field extraction; SCL2P -/

/-- C16: on a buffer of at least 11 bytes with code Offer and a declared length within the
buffer, `IPCP.DecodeFromBytes` returns `nil` with `Address` the four bytes `data[3:7]`,
`SubnetMask` the four bytes `data[7:11]`, whatever they are, and `Message` `nil`; on a
buffer of at least 3 bytes with code Success or Failure and a declared length within the
buffer it returns `nil` with `Message` all of `data[3:]` and `Address` and `SubnetMask`
`nil`. -/
theorem ipcp_decode_fields :
    (∀ (ipcp : IPCP) (df : DecodeFeedback) (data : Slice) (hi lo : Byte),
      11 ≤ data.len → data.index 0 = some IPCPOffer → data.index 1 = some hi →
      data.index 2 = some lo → (be16 hi lo).val ≤ data.len →
      (ipcp.DecodeFromBytes data df).ret = .nil ∧
        data.slice 3 7 = some (ipcp.DecodeFromBytes data df).layer.Address ∧
        data.slice 7 11 = some (ipcp.DecodeFromBytes data df).layer.SubnetMask ∧
        (ipcp.DecodeFromBytes data df).layer.Address.len = 4 ∧
        (ipcp.DecodeFromBytes data df).layer.SubnetMask.len = 4 ∧
        (ipcp.DecodeFromBytes data df).layer.Message = none) ∧
    (∀ (ipcp : IPCP) (df : DecodeFeedback) (data : Slice) (c hi lo : Byte),
      data.index 0 = some c → (c = IPCPSuccess ∨ c = IPCPFailure) → data.index 1 = some hi →
      data.index 2 = some lo → (be16 hi lo).val ≤ data.len →
      (ipcp.DecodeFromBytes data df).ret = .nil ∧
        (ipcp.DecodeFromBytes data df).layer.Message = some (data.bytes.drop 3) ∧
        (ipcp.DecodeFromBytes data df).layer.Address = none ∧
        (ipcp.DecodeFromBytes data df).layer.SubnetMask = none) := by
  constructor
  · intro ipcp df data hi lo h11 h0 h1 h2 hl
    obtain ⟨c', hi', rest, rfl⟩ := Slice.cons3_of_index data lo h2
    simp [Slice.index] at h0 h1
    subst h0 h1
    simp only [Slice.len, List.length_cons] at hl h11
    obtain ⟨a0, a1, a2, a3, m0, m1, m2, m3, rest, rfl⟩ := exists_cons8 rest (by omega)
    simp only [List.length_cons] at hl
    rw [ipcp_decode_offer ipcp df IPCPOffer hi' lo a0 a1 a2 a3 m0 m1 m2 m3 rest rfl (by omega)]
    simp [Slice.slice, Slice.len]
  · intro ipcp df data c hi lo h0 hc h1 h2 hl
    obtain ⟨c', hi', rest, rfl⟩ := Slice.cons3_of_index data lo h2
    simp [Slice.index] at h0 h1
    subst h0 h1
    simp only [Slice.len, List.length_cons] at hl
    rw [ipcp_decode_success ipcp df c' hi' lo rest hc (by omega)]
    simp

/-- Witness of `ipcp_decode_fields`: the Offer scenario decodes to 192.168.1.1 and
255.255.255.0; a Failure of 5 bytes decodes to its two message bytes. -/
theorem ipcp_decode_fields_witness :
    ((IPCP.zero.DecodeFromBytes offerBuffer DecodeFeedback.fresh).ret = .nil ∧
        offerBuffer.slice 3 7 = some (IPCP.zero.DecodeFromBytes offerBuffer
          DecodeFeedback.fresh).layer.Address ∧
        offerBuffer.slice 7 11 = some (IPCP.zero.DecodeFromBytes offerBuffer
          DecodeFeedback.fresh).layer.SubnetMask ∧
        (IPCP.zero.DecodeFromBytes offerBuffer DecodeFeedback.fresh).layer.Address.len = 4 ∧
        (IPCP.zero.DecodeFromBytes offerBuffer DecodeFeedback.fresh).layer.SubnetMask.len = 4 ∧
        (IPCP.zero.DecodeFromBytes offerBuffer DecodeFeedback.fresh).layer.Message = none) ∧
    (IPCP.zero.DecodeFromBytes offerBuffer DecodeFeedback.fresh).layer.Address
      = some [192, 168, 1, 1] ∧
    (IPCP.zero.DecodeFromBytes offerBuffer DecodeFeedback.fresh).layer.SubnetMask
      = some [255, 255, 255, 0] ∧
    ((IPCP.zero.DecodeFromBytes (some [3, 0, 5, 0x6e, 0x6f]) DecodeFeedback.fresh).ret = .nil ∧
        (IPCP.zero.DecodeFromBytes (some [3, 0, 5, 0x6e, 0x6f]) DecodeFeedback.fresh).layer.Message
          = some ((Slice.bytes (some [3, 0, 5, 0x6e, 0x6f])).drop 3) ∧
        (IPCP.zero.DecodeFromBytes (some [3, 0, 5, 0x6e, 0x6f]) DecodeFeedback.fresh).layer.Address
          = none ∧
        (IPCP.zero.DecodeFromBytes (some [3, 0, 5, 0x6e, 0x6f])
          DecodeFeedback.fresh).layer.SubnetMask = none) :=
  ⟨ipcp_decode_fields.1 IPCP.zero DecodeFeedback.fresh offerBuffer 0 11 (by decide) rfl rfl rfl
      (by decide),
   by decide, by decide,
   ipcp_decode_fields.2 IPCP.zero DecodeFeedback.fresh (some [3, 0, 5, 0x6e, 0x6f]) 3 0 5 rfl
      (Or.inr rfl) rfl rfl (by decide)⟩

/-- C17: `SCL2P.DecodeFromBytes` returns a truncation error after one `SetTruncated` on a
buffer without bytes; on a buffer with first byte `p` and further bytes `rest`, whatever
`p` is, it returns `nil` with `Protocol` `p`, `Contents` the first byte and `Payload`
`rest`; `SCL2P.SerializeTo`, into a buffer that grants the room, returns `nil` and has
written the one byte `Protocol`, and decoding that byte gives back `Protocol` with an empty
payload. -/
theorem scl2p_codec :
    (∀ (scl2p : SCL2P) (df : DecodeFeedback) (data : Slice), data.len = 0 →
      (∃ e, (scl2p.DecodeFromBytes data df).ret = .error e ∧ e.kind = .Truncated) ∧
        (scl2p.DecodeFromBytes data df).df.truncatedCalls = df.truncatedCalls + 1) ∧
    (∀ (scl2p : SCL2P) (df : DecodeFeedback) (p : Byte) (rest : List Byte),
      (scl2p.DecodeFromBytes (some (p :: rest)) df).ret = .nil ∧
        (scl2p.DecodeFromBytes (some (p :: rest)) df).layer.Protocol = p ∧
        (scl2p.DecodeFromBytes (some (p :: rest)) df).layer.Contents = some [p] ∧
        (scl2p.DecodeFromBytes (some (p :: rest)) df).layer.Payload = some rest ∧
        (scl2p.DecodeFromBytes (some (p :: rest)) df).df = df) ∧
    (∀ (scl2p other : SCL2P) (b : SerializeBuffer) (opts : SerializeOptions)
      (df : DecodeFeedback), b.err = none →
      (scl2p.SerializeTo b opts).ret = .nil ∧
        (scl2p.SerializeTo b opts).out = some [scl2p.Protocol] ∧
        (scl2p.SerializeTo b opts).layer = scl2p ∧
        (other.DecodeFromBytes (scl2p.SerializeTo b opts).out df).ret = .nil ∧
        (other.DecodeFromBytes (scl2p.SerializeTo b opts).out df).layer.Protocol
          = scl2p.Protocol ∧
        (other.DecodeFromBytes (scl2p.SerializeTo b opts).out df).layer.Payload = some []) := by
  refine ⟨?_, ?_, ?_⟩
  · intro scl2p df data h0
    simp [SCL2P.DecodeFromBytes, h0, Error.kind, DecodeFeedback.SetTruncated]
  · intro scl2p df p rest
    simp [SCL2P.DecodeFromBytes, Slice.len, Slice.index, Slice.sliceTo, Slice.sliceFrom,
      Slice.slice]
  · intro scl2p other b opts df hb
    have hs : scl2p.SerializeTo b opts = ⟨scl2p, some [scl2p.Protocol], .nil⟩ := by
      simp [SCL2P.SerializeTo, SerializeBuffer.PrependBytes, hb, store, List.range_succ]
    rw [hs]
    simp [SCL2P.DecodeFromBytes, Slice.len, Slice.index, Slice.sliceTo, Slice.sliceFrom,
      Slice.slice]

/-- Witness of `scl2p_codec`: the empty buffer; the scenario `07 DE AD BE EF`; the record
with selector 7 serialized and decoded again. -/
theorem scl2p_codec_witness :
    ((∃ e, (SCL2P.zero.DecodeFromBytes (some []) DecodeFeedback.fresh).ret = .error e ∧
        e.kind = .Truncated) ∧
      (SCL2P.zero.DecodeFromBytes (some []) DecodeFeedback.fresh).df.truncatedCalls
        = DecodeFeedback.fresh.truncatedCalls + 1) ∧
    ((SCL2P.zero.DecodeFromBytes (some [0x07, 0xDE, 0xAD, 0xBE, 0xEF]) DecodeFeedback.fresh).ret
        = .nil ∧
      (SCL2P.zero.DecodeFromBytes (some [0x07, 0xDE, 0xAD, 0xBE, 0xEF])
        DecodeFeedback.fresh).layer.Protocol = 7 ∧
      (SCL2P.zero.DecodeFromBytes (some [0x07, 0xDE, 0xAD, 0xBE, 0xEF])
        DecodeFeedback.fresh).layer.Contents = some [0x07] ∧
      (SCL2P.zero.DecodeFromBytes (some [0x07, 0xDE, 0xAD, 0xBE, 0xEF])
        DecodeFeedback.fresh).layer.Payload = some [0xDE, 0xAD, 0xBE, 0xEF] ∧
      (SCL2P.zero.DecodeFromBytes (some [0x07, 0xDE, 0xAD, 0xBE, 0xEF]) DecodeFeedback.fresh).df
        = DecodeFeedback.fresh) ∧
    ((SCL2P.SerializeTo { SCL2P.zero with Protocol := 7 } SerializeBuffer.fresh
        ⟨false, false⟩).ret = .nil ∧
      (SCL2P.SerializeTo { SCL2P.zero with Protocol := 7 } SerializeBuffer.fresh
        ⟨false, false⟩).out = some [7] ∧
      (SCL2P.SerializeTo { SCL2P.zero with Protocol := 7 } SerializeBuffer.fresh
        ⟨false, false⟩).layer = { SCL2P.zero with Protocol := 7 } ∧
      (SCL2P.zero.DecodeFromBytes (SCL2P.SerializeTo { SCL2P.zero with Protocol := 7 }
        SerializeBuffer.fresh ⟨false, false⟩).out DecodeFeedback.fresh).ret = .nil ∧
      (SCL2P.zero.DecodeFromBytes (SCL2P.SerializeTo { SCL2P.zero with Protocol := 7 }
        SerializeBuffer.fresh ⟨false, false⟩).out DecodeFeedback.fresh).layer.Protocol = 7 ∧
      (SCL2P.zero.DecodeFromBytes (SCL2P.SerializeTo { SCL2P.zero with Protocol := 7 }
        SerializeBuffer.fresh ⟨false, false⟩).out DecodeFeedback.fresh).layer.Payload
        = some []) :=
  ⟨scl2p_codec.1 SCL2P.zero DecodeFeedback.fresh (some []) rfl,
   scl2p_codec.2.1 SCL2P.zero DecodeFeedback.fresh 0x07 [0xDE, 0xAD, 0xBE, 0xEF],
   scl2p_codec.2.2 { SCL2P.zero with Protocol := 7 } SCL2P.zero SerializeBuffer.fresh
     ⟨false, false⟩ DecodeFeedback.fresh rfl⟩

/-! ## What a successful `SerializeTo` went through -/

/-- A `CHAP.SerializeTo` that returns `nil` got its room from the buffer and went through
one of the two shapes. -/
theorem chap_serialize_nil_inv (chap : CHAP) (b : SerializeBuffer) (opts : SerializeOptions)
    (h : (chap.SerializeTo b opts).ret = .nil) :
    b.err = none ∧
      (((chap.Code = CHAPChallenge ∨ chap.Code = CHAPResponse) ∧ chap.Message = none) ∨
       ((chap.Code = CHAPSuccess ∨ chap.Code = CHAPFailure) ∧ chap.Value = none ∧
          chap.Name = none)) := by
  have hb : b.err = none := by
    cases hb : b.err with
    | none => rfl
    | some e =>
      exfalso
      have hp : ∀ n, b.PrependBytes n = .error e := by
        intro n; simp [SerializeBuffer.PrependBytes, hb]
      unfold CHAP.SerializeTo at h
      simp only [hp] at h
      split at h <;> simp at h
  refine ⟨hb, ?_⟩
  by_cases hc : chap.Code = CHAPChallenge ∨ chap.Code = CHAPResponse
  · cases hm : chap.Message with
    | none => exact Or.inl ⟨hc, rfl⟩
    | some l => simp [CHAP.SerializeTo, hc, hm] at h
  · by_cases hc' : chap.Code = CHAPSuccess ∨ chap.Code = CHAPFailure
    · cases hv : chap.Value with
      | some l => simp [CHAP.SerializeTo, hc, hc', hv] at h
      | none =>
        cases hn : chap.Name with
        | some l => simp [CHAP.SerializeTo, hc, hc', hv, hn] at h
        | none => exact Or.inr ⟨hc', rfl, rfl⟩
    · simp [CHAP.SerializeTo, hc, hc'] at h

/-- A `copy` into `bytes[lo:hi]` within bounds keeps the length of `bytes` and the bytes
in front of `lo`. -/
theorem copyInto_keeps (bytes : List Byte) (lo hi : Nat) (src : Slice)
    (h : lo ≤ hi ∧ hi ≤ bytes.length) :
    ∃ r, copyInto bytes lo hi src = .ok r ∧ r.length = bytes.length ∧
      r.take lo = bytes.take lo := by
  refine ⟨_, by rw [copyInto, if_pos h], ?_, ?_⟩
  · simp only [List.length_append, List.length_take, List.length_drop, Slice.len_eq]
    omega
  · have hl : (bytes.take lo).length = lo := by
      simp only [List.length_take]; omega
    rw [List.append_assoc, List.take_append_of_le_length (by omega)]
    rw [List.take_of_length_le (by omega)]

/-- A `IPCP.SerializeTo` that returns `nil` got its room from the buffer and went through
one of the two shapes. -/
theorem ipcp_serialize_nil_inv (ipcp : IPCP) (b : SerializeBuffer) (opts : SerializeOptions)
    (h : (ipcp.SerializeTo b opts).ret = .nil) :
    b.err = none ∧
      ((ipcp.Code = IPCPOffer ∧ ipcp.Message = none) ∨
       ((ipcp.Code = IPCPSuccess ∨ ipcp.Code = IPCPFailure) ∧ ipcp.Address = none ∧
          ipcp.SubnetMask = none)) := by
  have hb : b.err = none := by
    cases hb : b.err with
    | none => rfl
    | some e =>
      exfalso
      have hp : ∀ n, b.PrependBytes n = .error e := by
        intro n; simp [SerializeBuffer.PrependBytes, hb]
      unfold IPCP.SerializeTo at h
      simp only [hp] at h
      split at h <;> simp at h
  refine ⟨hb, ?_⟩
  by_cases hc : ipcp.Code = IPCPOffer
  · cases hm : ipcp.Message with
    | none => exact Or.inl ⟨hc, rfl⟩
    | some l => simp [IPCP.SerializeTo, hc, hm] at h
  · by_cases hc' : ipcp.Code = IPCPSuccess ∨ ipcp.Code = IPCPFailure
    · cases hv : ipcp.Address with
      | some l => simp [IPCP.SerializeTo, hc, hc', hv] at h
      | none =>
        cases hn : ipcp.SubnetMask with
        | some l => simp [IPCP.SerializeTo, hc, hc', hv, hn] at h
        | none => exact Or.inr ⟨hc', rfl, rfl⟩
    · simp [IPCP.SerializeTo, hc, hc'] at h

theorem ipcp_write_offer_any (ipcp : IPCP) (b0 b1 b2 b3 b4 b5 b6 b7 b8 b9 b10 : Byte)
    (hc : ipcp.Code = IPCPOffer) :
    ∃ tail, ipcp.write [b0, b1, b2, b3, b4, b5, b6, b7, b8, b9, b10] =
        .ok (ipcp.Code :: hiByte ipcp.Length :: loByte ipcp.Length :: tail) ∧
      tail.length = 8 := by
  obtain ⟨r1, h1, hl1, ht1⟩ := copyInto_keeps
    [ipcp.Code, hiByte ipcp.Length, loByte ipcp.Length, b3, b4, b5, b6, b7, b8, b9, b10] 3 7
    (net.To4 ipcp.Address) (by simp)
  obtain ⟨r2, h2, hl2, ht2⟩ := copyInto_keeps r1 7 11 ipcp.SubnetMask
    (by rw [hl1]; simp)
  have hw : ipcp.write [b0, b1, b2, b3, b4, b5, b6, b7, b8, b9, b10] = .ok r2 := by
    rw [hc] at h1
    simp [IPCP.write, store, BigEndian.PutUint16, hc, bind, Except.bind, h1, h2]
  have e3 : r2.take 3 = [ipcp.Code, hiByte ipcp.Length, loByte ipcp.Length] := by
    have t2 : (r2.take 7).take 3 = (r1.take 7).take 3 := by rw [ht2]
    rw [List.take_take, List.take_take] at t2
    simp only [show min 3 7 = 3 from rfl] at t2
    rw [t2, ht1]
    rfl
  rw [hl1] at hl2
  rcases r2 with _ | ⟨x0, _ | ⟨x1, _ | ⟨x2, tail⟩⟩⟩
  all_goals simp at hl2 e3
  obtain ⟨rfl, rfl, rfl⟩ := e3
  exact ⟨tail, hw, by omega⟩

theorem ipcp_serialize_offer_any (ipcp : IPCP) (b : SerializeBuffer) (opts : SerializeOptions)
    (hc : ipcp.Code = IPCPOffer) (hm : ipcp.Message = none) (hb : b.err = none) (len : Word16)
    (hlen : len = if opts.FixLengths then uint16 (3 + 8) else ipcp.Length) :
    ∃ tail, ipcp.SerializeTo b opts =
        ⟨{ ipcp with Length := len }, some (ipcp.Code :: hiByte len :: loByte len :: tail),
          .nil⟩ ∧ tail.length = 8 := by
  obtain ⟨bytes, hp, hn⟩ := prepend_ok b (3 + 8) hb
  obtain ⟨b0, b1, b2, b3, b4, b5, b6, b7, b8, b9, b10, rfl⟩ := exists_cons11 bytes hn
  obtain ⟨tail, hw, ht⟩ :=
    ipcp_write_offer_any { ipcp with Length := len } b0 b1 b2 b3 b4 b5 b6 b7 b8 b9 b10 hc
  refine ⟨tail, ?_, ht⟩
  obtain ⟨base, code, length, address, mask, message⟩ := ipcp
  simp only at hc hm hp hw hlen
  subst hm hlen hc
  cases hf : opts.FixLengths <;> simp [hf] at hw <;>
    simp [IPCP.SerializeTo, hp, hf, hw]

/-! ## Layout of the serialized bytes -/

/-- C14: when `CHAP.SerializeTo` returns `nil`, the bytes written are code, identifier,
high and low byte of `Length`, `ValueSize`, then `Value`, then `Name` for Challenge and
Response (5 + len(Value) + len(Name) bytes), and code, identifier, high and low byte of
`Length`, then `Message` for Success and Failure (4 + len(Message) bytes). -/
theorem chap_serialize_layout (chap : CHAP) (b : SerializeBuffer) (opts : SerializeOptions)
    (h : (chap.SerializeTo b opts).ret = .nil) :
    ((chap.Code = CHAPChallenge ∨ chap.Code = CHAPResponse) ∧
      (chap.SerializeTo b opts).out =
        some (chap.Code :: chap.Identifier :: hiByte (chap.SerializeTo b opts).layer.Length ::
          loByte (chap.SerializeTo b opts).layer.Length :: chap.ValueSize ::
          (chap.Value.bytes ++ chap.Name.bytes)) ∧
      Slice.len (chap.SerializeTo b opts).out = 5 + chap.Value.len + chap.Name.len) ∨
    ((chap.Code = CHAPSuccess ∨ chap.Code = CHAPFailure) ∧
      (chap.SerializeTo b opts).out =
        some (chap.Code :: chap.Identifier :: hiByte (chap.SerializeTo b opts).layer.Length ::
          loByte (chap.SerializeTo b opts).layer.Length :: chap.Message.bytes) ∧
      Slice.len (chap.SerializeTo b opts).out = 4 + chap.Message.len) := by
  obtain ⟨hb, ⟨hc, hm⟩ | ⟨hc, hv, hn⟩⟩ := chap_serialize_nil_inv chap b opts h
  · rw [chap_serialize_challenge chap b opts hc hm hb _ rfl]
    refine Or.inl ⟨hc, rfl, ?_⟩
    rw [Slice.len_eq chap.Value, Slice.len_eq chap.Name]
    simp only [Slice.len, List.length_cons, List.length_append]
    omega
  · rw [chap_serialize_success chap b opts hc hv hn hb _ rfl]
    refine Or.inr ⟨hc, rfl, ?_⟩
    rw [Slice.len_eq chap.Message]
    simp only [Slice.len, List.length_cons]
    omega

/-- The Challenge record with value AA BB CC DD and name "hi". -/
def challengeRecord : CHAP :=
  { CHAP.zero with Code := CHAPChallenge, Identifier := 5, ValueSize := 4,
                   Value := some [0xAA, 0xBB, 0xCC, 0xDD], Name := some [0x68, 0x69] }

/-- Witness of `chap_serialize_layout`: the Challenge record with value AA BB CC DD and
name "hi", serialized with `FixLengths`, gives the 11 bytes 01 05 00 0B 04 AA BB CC DD 68
69. -/
theorem chap_serialize_layout_witness :
    (challengeRecord.SerializeTo SerializeBuffer.fresh ⟨true, false⟩).out
        = some [0x01, 0x05, 0x00, 0x0B, 0x04, 0xAA, 0xBB, 0xCC, 0xDD, 0x68, 0x69] ∧
    (((challengeRecord.Code = CHAPChallenge ∨ challengeRecord.Code = CHAPResponse) ∧
      (challengeRecord.SerializeTo SerializeBuffer.fresh ⟨true, false⟩).out =
        some (challengeRecord.Code :: challengeRecord.Identifier ::
          hiByte (challengeRecord.SerializeTo SerializeBuffer.fresh ⟨true, false⟩).layer.Length ::
          loByte (challengeRecord.SerializeTo SerializeBuffer.fresh ⟨true, false⟩).layer.Length ::
          challengeRecord.ValueSize ::
          (challengeRecord.Value.bytes ++ challengeRecord.Name.bytes)) ∧
      Slice.len (challengeRecord.SerializeTo SerializeBuffer.fresh ⟨true, false⟩).out
        = 5 + challengeRecord.Value.len + challengeRecord.Name.len) ∨
    ((challengeRecord.Code = CHAPSuccess ∨ challengeRecord.Code = CHAPFailure) ∧
      (challengeRecord.SerializeTo SerializeBuffer.fresh ⟨true, false⟩).out =
        some (challengeRecord.Code :: challengeRecord.Identifier ::
          hiByte (challengeRecord.SerializeTo SerializeBuffer.fresh ⟨true, false⟩).layer.Length ::
          loByte (challengeRecord.SerializeTo SerializeBuffer.fresh ⟨true, false⟩).layer.Length ::
          challengeRecord.Message.bytes) ∧
      Slice.len (challengeRecord.SerializeTo SerializeBuffer.fresh ⟨true, false⟩).out
        = 4 + challengeRecord.Message.len)) :=
  ⟨by decide,
   chap_serialize_layout challengeRecord SerializeBuffer.fresh ⟨true, false⟩ (by decide)⟩

/-! ## The length field on serialization -/

theorem uint16_val_of_le (n : Nat) (h : n ≤ 65535) : (uint16 n).val = n := by
  simp only [uint16]
  omega

/-- Every `CHAP.SerializeTo` that returns `nil` has written a 4-byte header and a body,
and has set `Length` from the size when `FixLengths` is set. -/
theorem chap_serialize_nil_form (chap : CHAP) (b : SerializeBuffer) (opts : SerializeOptions)
    (h : (chap.SerializeTo b opts).ret = .nil) :
    ∃ (size : Nat) (len : Word16) (tail : List Byte),
      len = (if opts.FixLengths then uint16 size else chap.Length) ∧
      chap.SerializeTo b opts =
        ⟨{ chap with Length := len },
          some (chap.Code :: chap.Identifier :: hiByte len :: loByte len :: tail), .nil⟩ ∧
      tail.length + 4 = size := by
  obtain ⟨hb, ⟨hc, hm⟩ | ⟨hc, hv, hn⟩⟩ := chap_serialize_nil_inv chap b opts h
  · refine ⟨4 + (1 + chap.Value.len + chap.Name.len), _, _, rfl,
      chap_serialize_challenge chap b opts hc hm hb _ rfl, ?_⟩
    rw [Slice.len_eq chap.Value, Slice.len_eq chap.Name]
    simp only [List.length_cons, List.length_append]
    omega
  · refine ⟨4 + chap.Message.len, _, _, rfl,
      chap_serialize_success chap b opts hc hv hn hb _ rfl, ?_⟩
    rw [Slice.len_eq chap.Message]
    omega

/-- Every `IPCP.SerializeTo` that returns `nil` has written a 3-byte header and a body,
and has set `Length` from the size when `FixLengths` is set. -/
theorem ipcp_serialize_nil_form (ipcp : IPCP) (b : SerializeBuffer) (opts : SerializeOptions)
    (h : (ipcp.SerializeTo b opts).ret = .nil) :
    ∃ (size : Nat) (len : Word16) (tail : List Byte),
      len = (if opts.FixLengths then uint16 size else ipcp.Length) ∧
      ipcp.SerializeTo b opts =
        ⟨{ ipcp with Length := len },
          some (ipcp.Code :: hiByte len :: loByte len :: tail), .nil⟩ ∧
      tail.length + 3 = size := by
  obtain ⟨hb, ⟨hc, hm⟩ | ⟨hc, hv, hn⟩⟩ := ipcp_serialize_nil_inv ipcp b opts h
  · obtain ⟨tail, hs, ht⟩ := ipcp_serialize_offer_any ipcp b opts hc hm hb _ rfl
    exact ⟨3 + 8, _, tail, rfl, hs, by omega⟩
  · refine ⟨3 + ipcp.Message.len, _, _, rfl,
      ipcp_serialize_success ipcp b opts hc hv hn hb _ rfl, ?_⟩
    rw [Slice.len_eq ipcp.Message]
    omega

theorem chap_serialize_wrap (r : CHAP) (b : SerializeBuffer) (cc : Bool)
    (hc : r.Code = CHAPSuccess) (hv : r.Value = none) (hn : r.Name = none)
    (hb : b.err = none) (hm : r.Message.len = 65532) :
    (r.SerializeTo b ⟨true, cc⟩).ret = .nil ∧
      Slice.len (r.SerializeTo b ⟨true, cc⟩).out = 65536 ∧
      (r.SerializeTo b ⟨true, cc⟩).layer.Length.val = 0 ∧
      Slice.index (r.SerializeTo b ⟨true, cc⟩).out 2 = some 0 ∧
      Slice.index (r.SerializeTo b ⟨true, cc⟩).out 3 = some 0 := by
  have hu : uint16 (4 + r.Message.len) = 0 := by
    rw [hm]; decide
  rw [chap_serialize_success r b ⟨true, cc⟩ (Or.inl hc) hv hn hb (uint16 (4 + r.Message.len))
    (by simp)]
  rw [hu]
  have h2 : hiByte 0 = 0 := by decide
  have h3 : loByte 0 = 0 := by decide
  refine ⟨rfl, ?_, rfl, ?_, ?_⟩
  · rw [Slice.len_eq] at hm
    simp only [Slice.len, List.length_cons, hm]
  · simp [Slice.index, h2]
  · simp [Slice.index, h3]

/-- The Success record whose message has 65532 bytes: its encoded size is 65536. -/
def bigRecord : CHAP :=
  { CHAP.zero with Code := CHAPSuccess, Message := some (List.replicate 65532 0) }

/-- C15 as stated fails on a record whose encoded size does not fit 16 bits: the Success
record with a message of 65532 bytes serializes with `FixLengths` to 65536 bytes, and
`Length` is set to `uint16(65536)`, which is 0, and bytes 2-3 written are 00 00. -/
theorem serialize_length_wraps_at_65536 :
    (bigRecord.SerializeTo SerializeBuffer.fresh ⟨true, false⟩).ret = .nil ∧
      Slice.len (bigRecord.SerializeTo SerializeBuffer.fresh ⟨true, false⟩).out = 65536 ∧
      (bigRecord.SerializeTo SerializeBuffer.fresh ⟨true, false⟩).layer.Length.val = 0 ∧
      Slice.index (bigRecord.SerializeTo SerializeBuffer.fresh ⟨true, false⟩).out 2 = some 0 ∧
      Slice.index (bigRecord.SerializeTo SerializeBuffer.fresh ⟨true, false⟩).out 3 = some 0 :=
  chap_serialize_wrap bigRecord SerializeBuffer.fresh false rfl rfl rfl rfl
    (by simp only [bigRecord, Slice.len, List.length_replicate])

/-- C15, amended: when `CHAP.SerializeTo` (resp. `IPCP.SerializeTo`) returns `nil`, with
`FixLengths` the record's `Length` is `uint16(size)` for the number of bytes written,
which is that number whenever it is at most 65535; without `FixLengths` `Length` is
unchanged; and bytes 2-3 (resp. 1-2) written are the big-endian encoding of `Length` as it
is after the call. -/
theorem serialize_length_field :
    (∀ (chap : CHAP) (b : SerializeBuffer) (opts : SerializeOptions),
      (chap.SerializeTo b opts).ret = .nil →
      (opts.FixLengths = true →
        (chap.SerializeTo b opts).layer.Length
            = uint16 (Slice.len (chap.SerializeTo b opts).out) ∧
          (Slice.len (chap.SerializeTo b opts).out ≤ 65535 →
            (chap.SerializeTo b opts).layer.Length.val
              = Slice.len (chap.SerializeTo b opts).out)) ∧
      (opts.FixLengths = false → (chap.SerializeTo b opts).layer.Length = chap.Length) ∧
      (∃ hi lo, Slice.index (chap.SerializeTo b opts).out 2 = some hi ∧
        Slice.index (chap.SerializeTo b opts).out 3 = some lo ∧
        be16 hi lo = (chap.SerializeTo b opts).layer.Length)) ∧
    (∀ (ipcp : IPCP) (b : SerializeBuffer) (opts : SerializeOptions),
      (ipcp.SerializeTo b opts).ret = .nil →
      (opts.FixLengths = true →
        (ipcp.SerializeTo b opts).layer.Length
            = uint16 (Slice.len (ipcp.SerializeTo b opts).out) ∧
          (Slice.len (ipcp.SerializeTo b opts).out ≤ 65535 →
            (ipcp.SerializeTo b opts).layer.Length.val
              = Slice.len (ipcp.SerializeTo b opts).out)) ∧
      (opts.FixLengths = false → (ipcp.SerializeTo b opts).layer.Length = ipcp.Length) ∧
      (∃ hi lo, Slice.index (ipcp.SerializeTo b opts).out 1 = some hi ∧
        Slice.index (ipcp.SerializeTo b opts).out 2 = some lo ∧
        be16 hi lo = (ipcp.SerializeTo b opts).layer.Length)) := by
  constructor
  · intro chap b opts h
    obtain ⟨size, len, tail, hlen, hs, ht⟩ := chap_serialize_nil_form chap b opts h
    rw [hs]
    have ho : Slice.len (some (chap.Code :: chap.Identifier :: hiByte len :: loByte len :: tail))
        = size := by
      simp only [Slice.len, List.length_cons]; omega
    refine ⟨fun hf => ?_, fun hf => ?_, hiByte len, loByte len, by simp [Slice.index],
      by simp [Slice.index], be16_hiByte_loByte len⟩
    · simp only [hf, if_true] at hlen
      dsimp only
      rw [ho]
      exact ⟨hlen, fun hle => by rw [hlen]; exact uint16_val_of_le size hle⟩
    · simp only [hf, Bool.false_eq_true, if_false] at hlen
      exact hlen
  · intro ipcp b opts h
    obtain ⟨size, len, tail, hlen, hs, ht⟩ := ipcp_serialize_nil_form ipcp b opts h
    rw [hs]
    have ho : Slice.len (some (ipcp.Code :: hiByte len :: loByte len :: tail)) = size := by
      simp only [Slice.len, List.length_cons]; omega
    refine ⟨fun hf => ?_, fun hf => ?_, hiByte len, loByte len, by simp [Slice.index],
      by simp [Slice.index], be16_hiByte_loByte len⟩
    · simp only [hf, if_true] at hlen
      dsimp only
      rw [ho]
      exact ⟨hlen, fun hle => by rw [hlen]; exact uint16_val_of_le size hle⟩
    · simp only [hf, Bool.false_eq_true, if_false] at hlen
      exact hlen

/-- Witness of `serialize_length_field`: the Challenge record with value AA BB CC DD and
name "hi" (11 bytes, so `Length` becomes 11 and bytes 2-3 are 00 0B), and the Offer record
192.168.1.1 / 255.255.255.0 (11 bytes, bytes 1-2 are 00 0B), both with `FixLengths`. -/
theorem serialize_length_field_witness :
    ((challengeRecord.SerializeTo SerializeBuffer.fresh ⟨true, false⟩).layer.Length.val = 11 ∧
      Slice.index (challengeRecord.SerializeTo SerializeBuffer.fresh ⟨true, false⟩).out 2
        = some 0x00 ∧
      Slice.index (challengeRecord.SerializeTo SerializeBuffer.fresh ⟨true, false⟩).out 3
        = some 0x0B) ∧
    ((true = true →
        (challengeRecord.SerializeTo SerializeBuffer.fresh ⟨true, false⟩).layer.Length
            = uint16 (Slice.len (challengeRecord.SerializeTo SerializeBuffer.fresh
                ⟨true, false⟩).out) ∧
          (Slice.len (challengeRecord.SerializeTo SerializeBuffer.fresh ⟨true, false⟩).out
              ≤ 65535 →
            (challengeRecord.SerializeTo SerializeBuffer.fresh ⟨true, false⟩).layer.Length.val
              = Slice.len (challengeRecord.SerializeTo SerializeBuffer.fresh
                  ⟨true, false⟩).out)) ∧
      (true = false →
        (challengeRecord.SerializeTo SerializeBuffer.fresh ⟨true, false⟩).layer.Length
          = challengeRecord.Length) ∧
      (∃ hi lo,
        Slice.index (challengeRecord.SerializeTo SerializeBuffer.fresh ⟨true, false⟩).out 2
          = some hi ∧
        Slice.index (challengeRecord.SerializeTo SerializeBuffer.fresh ⟨true, false⟩).out 3
          = some lo ∧
        be16 hi lo
          = (challengeRecord.SerializeTo SerializeBuffer.fresh ⟨true, false⟩).layer.Length)) ∧
    ((true = true →
        (offerRecord.SerializeTo SerializeBuffer.fresh ⟨true, false⟩).layer.Length
            = uint16 (Slice.len (offerRecord.SerializeTo SerializeBuffer.fresh
                ⟨true, false⟩).out) ∧
          (Slice.len (offerRecord.SerializeTo SerializeBuffer.fresh ⟨true, false⟩).out
              ≤ 65535 →
            (offerRecord.SerializeTo SerializeBuffer.fresh ⟨true, false⟩).layer.Length.val
              = Slice.len (offerRecord.SerializeTo SerializeBuffer.fresh ⟨true, false⟩).out)) ∧
      (true = false →
        (offerRecord.SerializeTo SerializeBuffer.fresh ⟨true, false⟩).layer.Length
          = offerRecord.Length) ∧
      (∃ hi lo,
        Slice.index (offerRecord.SerializeTo SerializeBuffer.fresh ⟨true, false⟩).out 1
          = some hi ∧
        Slice.index (offerRecord.SerializeTo SerializeBuffer.fresh ⟨true, false⟩).out 2
          = some lo ∧
        be16 hi lo
          = (offerRecord.SerializeTo SerializeBuffer.fresh ⟨true, false⟩).layer.Length)) :=
  ⟨by decide,
   serialize_length_field.1 challengeRecord SerializeBuffer.fresh ⟨true, false⟩ (by decide),
   serialize_length_field.2 offerRecord SerializeBuffer.fresh ⟨true, false⟩ (by decide)⟩

/-! ## The value size on serialization; IPCP re-encoding -/

/-- The Challenge record with value size 1 and the two-byte value AA BB. -/
def shortSizeRecord : CHAP :=
  { CHAP.zero with Code := CHAPChallenge, ValueSize := 1, Value := some [0xAA, 0xBB] }

/-- C19: when `CHAP.SerializeTo` returns `nil` for a Challenge or Response, byte 4 written
is the record's `ValueSize` and the field is left as it was, whatever the length of `Value`
and whatever the options; and for some record with `ValueSize` different from the length of
`Value` (value size 1, value AA BB) the bytes written decode to another value (AA). -/
theorem chap_serialize_value_size_verbatim :
    (∀ (chap : CHAP) (b : SerializeBuffer) (opts : SerializeOptions),
      (chap.SerializeTo b opts).ret = .nil →
      (chap.Code = CHAPChallenge ∨ chap.Code = CHAPResponse) →
      Slice.index (chap.SerializeTo b opts).out 4 = some chap.ValueSize ∧
        (chap.SerializeTo b opts).layer.ValueSize = chap.ValueSize) ∧
    (∃ r : CHAP, r.ValueSize.val ≠ r.Value.len ∧
      (r.SerializeTo SerializeBuffer.fresh ⟨true, false⟩).ret = .nil ∧
      (CHAP.zero.DecodeFromBytes (r.SerializeTo SerializeBuffer.fresh ⟨true, false⟩).out
        DecodeFeedback.fresh).ret = .nil ∧
      (CHAP.zero.DecodeFromBytes (r.SerializeTo SerializeBuffer.fresh ⟨true, false⟩).out
        DecodeFeedback.fresh).layer.Value.bytes ≠ r.Value.bytes) := by
  constructor
  · intro chap b opts h hc
    obtain ⟨hb, ⟨_, hm⟩ | ⟨hc', _, _⟩⟩ := chap_serialize_nil_inv chap b opts h
    · rw [chap_serialize_challenge chap b opts hc hm hb _ rfl]
      exact ⟨by simp [Slice.index], rfl⟩
    · exfalso
      rcases hc with h1 | h1 <;> rcases hc' with h2 | h2 <;> rw [h1] at h2 <;>
        exact absurd h2 (by decide)
  · exact ⟨shortSizeRecord, by decide⟩

/-- Witness of `chap_serialize_value_size_verbatim`: the record with value size 1 and value
AA BB serializes to 01 00 00 07 01 AA BB, byte 4 being the value size 1. -/
theorem chap_serialize_value_size_verbatim_witness :
    (shortSizeRecord.SerializeTo SerializeBuffer.fresh ⟨true, false⟩).out
        = some [0x01, 0x00, 0x00, 0x07, 0x01, 0xAA, 0xBB] ∧
      Slice.index (shortSizeRecord.SerializeTo SerializeBuffer.fresh ⟨true, false⟩).out 4
        = some shortSizeRecord.ValueSize ∧
      (shortSizeRecord.SerializeTo SerializeBuffer.fresh ⟨true, false⟩).layer.ValueSize
        = shortSizeRecord.ValueSize :=
  ⟨by decide,
   chap_serialize_value_size_verbatim.1 shortSizeRecord SerializeBuffer.fresh ⟨true, false⟩
     (by decide) (Or.inl rfl)⟩

/-- An Offer of 13 bytes that declares 13: two bytes follow the mask. -/
def longOfferBuffer : Slice :=
  some [0x01, 0x00, 0x0D, 0xC0, 0xA8, 0x01, 0x01, 0xFF, 0xFF, 0xFF, 0x00, 0x09, 0x0A]

/-- C20 as stated fails on an Offer of 13 bytes that declares 13: the decode succeeds, the
payload is empty, and the bytes at offsets 11 and 12 are held in `Contents`, which is the
whole buffer. -/
theorem ipcp_offer_tail_in_contents :
    (IPCP.zero.DecodeFromBytes longOfferBuffer DecodeFeedback.fresh).ret = .nil ∧
      (IPCP.zero.DecodeFromBytes longOfferBuffer DecodeFeedback.fresh).layer.Code = IPCPOffer ∧
      (IPCP.zero.DecodeFromBytes longOfferBuffer DecodeFeedback.fresh).layer.Payload = some [] ∧
      (IPCP.zero.DecodeFromBytes longOfferBuffer DecodeFeedback.fresh).layer.Contents
        = longOfferBuffer ∧
      Slice.index (IPCP.zero.DecodeFromBytes longOfferBuffer DecodeFeedback.fresh).layer.Contents
        11 = some 0x09 ∧
      Slice.index (IPCP.zero.DecodeFromBytes longOfferBuffer DecodeFeedback.fresh).layer.Contents
        12 = some 0x0A := by
  decide

/-- C20, amended: when `IPCP.DecodeFromBytes` returns `nil` on a buffer, `SerializeTo` of
the decoded layer without `FixLengths`, into a buffer that grants the room, returns `nil`;
for Success and Failure it has written the whole buffer; for Offer it has written exactly
the first 11 bytes of the buffer, `Address` is `data[3:7]`, `SubnetMask` is `data[7:11]`
and `Message` is `nil`, so that the bytes from offset 11 on are in none of these, and
`Contents` is `data[:Length]` and `Payload` is `data[Length:]`, so that they are in
`Contents` when below the declared length and in `Payload` otherwise. -/
theorem ipcp_reencode (ipcp : IPCP) (df : DecodeFeedback) (data : Slice)
    (b : SerializeBuffer) (opts : SerializeOptions)
    (hd : (ipcp.DecodeFromBytes data df).ret = .nil) (hb : b.err = none)
    (ho : opts.FixLengths = false) :
    ((ipcp.DecodeFromBytes data df).layer.SerializeTo b opts).ret = .nil ∧
    (((ipcp.DecodeFromBytes data df).layer.Code = IPCPSuccess ∨
        (ipcp.DecodeFromBytes data df).layer.Code = IPCPFailure) →
      ((ipcp.DecodeFromBytes data df).layer.SerializeTo b opts).out = data) ∧
    ((ipcp.DecodeFromBytes data df).layer.Code = IPCPOffer →
      ((ipcp.DecodeFromBytes data df).layer.SerializeTo b opts).out
          = some (data.bytes.take 11) ∧
        data.slice 3 7 = some (ipcp.DecodeFromBytes data df).layer.Address ∧
        data.slice 7 11 = some (ipcp.DecodeFromBytes data df).layer.SubnetMask ∧
        (ipcp.DecodeFromBytes data df).layer.Message = none ∧
        data.sliceTo (ipcp.DecodeFromBytes data df).layer.Length.val
          = some (ipcp.DecodeFromBytes data df).layer.Contents ∧
        data.sliceFrom (ipcp.DecodeFromBytes data df).layer.Length.val
          = some (ipcp.DecodeFromBytes data df).layer.Payload) := by
  rcases ipcp_decode_nil_inv ipcp df data hd with
    ⟨c, h, l, a0, a1, a2, a3, m0, m1, m2, m3, rest, rfl, hc, hl⟩ | ⟨c, h, l, rest, rfl, hc, hl⟩
  · rw [ipcp_decode_offer ipcp df c h l a0 a1 a2 a3 m0 m1 m2 m3 rest hc hl]
    dsimp only
    rw [ipcp_serialize_offer _ b opts a0 a1 a2 a3 m0 m1 m2 m3 hc rfl rfl rfl hb (be16 h l)
      (by simp [ho])]
    have hb' : (be16 h l).val
        ≤ (c :: h :: l :: a0 :: a1 :: a2 :: a3 :: m0 :: m1 :: m2 :: m3 :: rest).length := by
      simp only [List.length_cons]; omega
    refine ⟨rfl, ?_, fun _ => ⟨?_, ?_, ?_, rfl, sliceTo_take _ _ hb', sliceFrom_drop _ _ hb'⟩⟩
    · intro hc'
      exfalso
      rcases hc' with h2 | h2 <;> rw [hc] at h2 <;> exact absurd h2 (by decide)
    · simp [hiByte_be16, loByte_be16]
    · simp [Slice.slice, Slice.len]
    · simp [Slice.slice, Slice.len]
  · rw [ipcp_decode_success ipcp df c h l rest hc hl]
    dsimp only
    rw [ipcp_serialize_success _ b opts hc rfl rfl hb (be16 h l) (by simp [ho])]
    refine ⟨rfl, fun _ => ?_, fun hc' => ?_⟩
    · simp [hiByte_be16, loByte_be16]
    · exfalso
      rcases hc with h2 | h2 <;> rw [hc'] at h2 <;> exact absurd h2 (by decide)

/-- Witness of `ipcp_reencode`: the Offer of 13 bytes serializes back to its first 11
bytes. -/
theorem ipcp_reencode_witness :
    ((IPCP.zero.DecodeFromBytes longOfferBuffer DecodeFeedback.fresh).layer.SerializeTo
        SerializeBuffer.fresh ⟨false, false⟩).out
      = some [0x01, 0x00, 0x0D, 0xC0, 0xA8, 0x01, 0x01, 0xFF, 0xFF, 0xFF, 0x00] ∧
    (((IPCP.zero.DecodeFromBytes longOfferBuffer DecodeFeedback.fresh).layer.SerializeTo
        SerializeBuffer.fresh ⟨false, false⟩).ret = .nil ∧
    (((IPCP.zero.DecodeFromBytes longOfferBuffer DecodeFeedback.fresh).layer.Code = IPCPSuccess ∨
        (IPCP.zero.DecodeFromBytes longOfferBuffer DecodeFeedback.fresh).layer.Code
          = IPCPFailure) →
      ((IPCP.zero.DecodeFromBytes longOfferBuffer DecodeFeedback.fresh).layer.SerializeTo
        SerializeBuffer.fresh ⟨false, false⟩).out = longOfferBuffer) ∧
    ((IPCP.zero.DecodeFromBytes longOfferBuffer DecodeFeedback.fresh).layer.Code = IPCPOffer →
      ((IPCP.zero.DecodeFromBytes longOfferBuffer DecodeFeedback.fresh).layer.SerializeTo
          SerializeBuffer.fresh ⟨false, false⟩).out = some (longOfferBuffer.bytes.take 11) ∧
        longOfferBuffer.slice 3 7
          = some (IPCP.zero.DecodeFromBytes longOfferBuffer DecodeFeedback.fresh).layer.Address ∧
        longOfferBuffer.slice 7 11
          = some (IPCP.zero.DecodeFromBytes longOfferBuffer
              DecodeFeedback.fresh).layer.SubnetMask ∧
        (IPCP.zero.DecodeFromBytes longOfferBuffer DecodeFeedback.fresh).layer.Message = none ∧
        longOfferBuffer.sliceTo
            (IPCP.zero.DecodeFromBytes longOfferBuffer DecodeFeedback.fresh).layer.Length.val
          = some (IPCP.zero.DecodeFromBytes longOfferBuffer DecodeFeedback.fresh).layer.Contents ∧
        longOfferBuffer.sliceFrom
            (IPCP.zero.DecodeFromBytes longOfferBuffer DecodeFeedback.fresh).layer.Length.val
          = some (IPCP.zero.DecodeFromBytes longOfferBuffer
              DecodeFeedback.fresh).layer.Payload)) :=
  ⟨by decide,
   ipcp_reencode IPCP.zero DecodeFeedback.fresh longOfferBuffer SerializeBuffer.fresh
     ⟨false, false⟩ (by decide) rfl rfl⟩

end Layers
